import Mathlib

/-!
# Serialized form of the `Application` and `SnapshotEnvironmentBinding` schemas

The repository (`api/v1alpha1`) declares Go structs with `json` struct tags and
nothing else.  The observable contract of such a declaration is the JSON
document that the Go JSON marshaller derives from the tags, and the value the
unmarshaller rebuilds from a document.  This file embeds

* the structs, field by field, with the field names of the source;
* for every struct its marshalled field list, one entry per struct tag,
  following the rules of the Go marshaller:
  a field tagged `omitempty` is left out when its value is *empty*, where the
  empty values are the empty string, the number 0, a nil pointer and a slice
  of length 0; **a struct value is never empty**; a nil slice that is
  marshalled is written as `null`; a string is written as text, every byte of
  it that belongs to no valid UTF-8 encoding replaced by U+FFFD;
* for every struct its unmarshaller, following the rules of the Go
  unmarshaller: the members of a JSON object are applied one after the other
  to the target value, a member whose key names no field is ignored, `null`
  leaves a string, number or struct as it is and sets a slice or pointer to
  nil, the elements of an array are unmarshalled into the elements the slice
  already holds, a JSON value of the wrong kind is an error.

JSON documents are modelled as trees (`JSON`), not as text.  A Go string is a
sequence of bytes; it is held as the sequence of items Go reads from it, code
points and stray bytes (`GoString`).  A member key names a field when it
equals the name in the struct tag, as in the decoder of the Kubernetes API
machinery these types are registered with.

Types that the source imports from other modules (`metav1.ObjectMeta`,
`metav1.Condition`, `corev1.ResourceRequirements`) are parameters: a type
together with its zero value, its marshaller and its unmarshaller (`Ext`).
-/

namespace V1alpha1

/-! ## JSON documents -/

/-- A JSON document as a tree.  Numbers are integer literals, the only
numbers the schemas of this package hold. -/
inductive JSON where
  | null : JSON
  | bool : Bool → JSON
  | num : Int → JSON
  | str : String → JSON
  | arr : List JSON → JSON
  | obj : List (String × JSON) → JSON

/-- The members of a JSON object, in order. -/
abbrev Members := List (String × JSON)

/-- Whether a document is the literal `null`. -/
def JSON.isNull : JSON → Bool
  | .null => true
  | _ => false

/-- The keys of a member list, in order. -/
def keys (ms : Members) : List String := ms.map Prod.fst

/-- The value the unmarshaller sees last for key `k`, if any. -/
def lookup (k : String) (ms : Members) : Option JSON :=
  (ms.reverse.find? fun kv => kv.1 == k).map Prod.snd

/-- The members of a document that is an object (no members otherwise). -/
def JSON.members : JSON → Members
  | .obj ms => ms
  | _ => []

/-- Whether a document is an object with a member named `k`. -/
def JSON.hasKey (j : JSON) (k : String) : Bool := (keys j.members).contains k

/-- The member `k` of an object. -/
def JSON.get (j : JSON) (k : String) : Option JSON := lookup k j.members

/-! ## Go values -/

/-- One item of a Go string, as Go reads the bytes of the string one code point at a
time: a code point that is encoded in valid UTF-8, or a single byte that belongs to
no valid encoding. -/
inductive StringItem where
  | rune (c : Char)
  | stray (b : Fin 256)
  deriving DecidableEq, Repr

/-- A Go `string`: any sequence of bytes, held as the items Go reads from it.  Every
Go string is such a sequence; it is valid UTF-8 when no item is a stray byte. -/
structure GoString where
  items : List StringItem
  deriving DecidableEq, Repr

/-- The empty string, the zero value of `string`. -/
def GoString.empty : GoString := ⟨[]⟩

/-- The Go string with the UTF-8 encoding of a text. -/
def GoString.ofText (s : String) : GoString := ⟨s.data.map StringItem.rune⟩

instance : Coe String GoString := ⟨GoString.ofText⟩

/-- The character the marshaller writes for an item: the code point itself, and
U+FFFD for a stray byte. -/
def StringItem.written : StringItem → Char
  | .rune c => c
  | .stray _ => Char.ofNat 0xFFFD

/-- The text the marshaller writes for a Go string. -/
def GoString.toText (g : GoString) : String := String.mk (g.items.map StringItem.written)

/-- Whether an item is a validly encoded code point. -/
def StringItem.isRune : StringItem → Bool
  | .rune _ => true
  | .stray _ => false

/-- The Go string is valid UTF-8. -/
def GoString.Valid (g : GoString) : Prop := ∀ u ∈ g.items, u.isRune = true

instance (g : GoString) : Decidable g.Valid := by unfold GoString.Valid; infer_instance

/-- A Go string as it is read back after being written. -/
def GoString.readBack (g : GoString) : GoString := GoString.ofText g.toText

/-- A Go slice: `none` is the nil slice, `some []` an empty slice that is not nil. -/
abbrev Slice (α : Type) := Option (List α)

/-- The elements of a slice; the nil slice has none. -/
def Slice.toList {α : Type} : Slice α → List α
  | none => []
  | some xs => xs

/-- Range of the Go type `int` on a 64-bit platform. -/
def inInt64 (n : Int) : Prop := -9223372036854775808 ≤ n ∧ n < 9223372036854775808

instance (n : Int) : Decidable (inInt64 n) := by unfold inInt64; infer_instance

/-- A Go `int`. -/
abbrev GoInt := { n : Int // inInt64 n }

/-- The zero of `int`. -/
def GoInt.zero : GoInt := ⟨0, by decide⟩

/-- An imported type: its Go zero value, its marshaller and its unmarshaller
(which, as in Go, writes into an existing value). -/
structure Ext (α : Type) where
  zero : α
  enc : α → JSON
  dec : α → JSON → Option α

/-- The value `x` of an imported struct type survives its own marshaller and unmarshaller:
it is written as something other than `null` and read back as itself. -/
def Ext.Faithful {α : Type} (c : Ext α) (x : α) : Prop :=
  (c.enc x).isNull = false ∧ c.dec c.zero (c.enc x) = some x

/-! ## The marshaller: struct tags -/

/-- Go `isEmptyValue` on a string: length 0. -/
def isEmptyString (s : GoString) : Bool := decide (s = GoString.empty)

/-- Go `isEmptyValue` on a slice: length 0, nil or not. -/
def isEmptySlice {α : Type} (s : Slice α) : Bool := s.toList.isEmpty

/-- Go `isEmptyValue` on a pointer: nil. -/
def isEmptyPtr {α : Type} (p : Option α) : Bool := p.isNone

/-- Go `isEmptyValue` on a struct value: a struct is never empty. -/
def isEmptyStruct {α : Type} (_ : α) : Bool := false

/-- A field with a plain tag `json:"k"`: always written. -/
def always (k : String) (v : JSON) : Members := [(k, v)]

/-- A field tagged `json:"k,omitempty"`: written unless its value is empty. -/
def omitempty (k : String) (empty : Bool) (v : JSON) : Members :=
  if empty then [] else [(k, v)]

/-- Marshalling of a string: its text, stray bytes replaced. -/
def encString (s : GoString) : JSON := .str s.toText

/-- Marshalling of a slice: `null` for the nil slice, an array otherwise. -/
def encSlice {α : Type} (enc : α → JSON) : Slice α → JSON
  | none => .null
  | some xs => .arr (xs.map enc)

/-- Marshalling of a pointer that is written: `null` when nil. -/
def encPtr {α : Type} (enc : α → JSON) : Option α → JSON
  | none => .null
  | some x => enc x

/-! ## The unmarshaller -/

/-- Unmarshal into a string field holding `cur`. -/
def decString (cur : GoString) : JSON → Option GoString
  | .str s => some (GoString.ofText s)
  | .null => some cur
  | _ => none

/-- Unmarshal into an `int` field holding `cur`. -/
def decInt (cur : GoInt) : JSON → Option GoInt
  | .num n => if h : inInt64 n then some ⟨n, h⟩ else none
  | .null => some cur
  | _ => none

/-- Unmarshal into a struct holding `cur`: the members are applied in order by `set`. -/
def decStruct {α : Type} (set : α → String → JSON → Option α) (cur : α) : JSON → Option α
  | .obj ms => ms.foldlM (fun acc kv => set acc kv.1 kv.2) cur
  | .null => some cur
  | _ => none

/-- Unmarshal the elements of an array: element `i` is unmarshalled into the element
the slice holds at `i`, and into the zero value beyond the length of the slice. -/
def decElems {α : Type} (zero : α) (dec : α → JSON → Option α) : List α → List JSON → Option (List α)
  | _, [] => some []
  | cur, j :: js =>
    match dec (cur.headD zero) j with
    | none => none
    | some x => (decElems zero dec cur.tail js).map fun xs => x :: xs

/-- Unmarshal into a slice field holding `cur`: `null` gives the nil slice, an array a
slice of as many elements, the leading ones unmarshalled into the elements of `cur`.
Beyond the length of `cur` the target is the zero value; this is what Go does for a
document in which the key of the slice occurs at most twice (what a third occurrence
finds behind the length of a slice that was cut short is not modelled). -/
def decSlice {α : Type} (zero : α) (dec : α → JSON → Option α) (cur : Slice α) :
    JSON → Option (Slice α)
  | .arr js => (decElems zero dec cur.toList js).map some
  | .null => some none
  | _ => none

/-- Unmarshal into a pointer field holding `cur`: `null` gives nil, anything else is
unmarshalled into the pointee (a fresh zero value when the pointer is nil). -/
def decPtr {α : Type} (zero : α) (dec : α → JSON → Option α) (cur : Option α) (j : JSON) :
    Option (Option α) :=
  if j.isNull then some none else (dec (cur.getD zero) j).map some

/-! ## `application_types.go` -/

/-- ApplicationGitRepository defines a git repository for a given Application resource. -/
structure ApplicationGitRepository where
  URL : GoString
  Branch : GoString
  Context : GoString
  deriving DecidableEq, Repr

/-- ApplicationSpec defines the desired state of Application. -/
structure ApplicationSpec where
  DisplayName : GoString
  AppModelRepository : ApplicationGitRepository
  GitOpsRepository : ApplicationGitRepository
  Description : GoString
  deriving DecidableEq, Repr

/-- ApplicationStatus defines the observed state of Application. -/
structure ApplicationStatus (Cond : Type) where
  Conditions : Slice Cond
  Devfile : GoString
  deriving DecidableEq, Repr

/-- Modelled from the spec: the imported `metav1.TypeMeta` that each resource of the
declarative resource API embeds inline: the kind and API version strings, both
tagged `omitempty`. -/
structure TypeMeta where
  Kind : GoString
  APIVersion : GoString
  deriving DecidableEq, Repr

/-- Application is the Schema for the applications API. -/
structure Application (Meta Cond : Type) where
  TypeMeta : TypeMeta
  ObjectMeta : Meta
  Spec : ApplicationSpec
  Status : ApplicationStatus Cond
  deriving DecidableEq, Repr

/-- Zero value of `ApplicationGitRepository`. -/
def ApplicationGitRepository.zero : ApplicationGitRepository := ⟨GoString.empty, GoString.empty, GoString.empty⟩

/-- Zero value of `ApplicationSpec`. -/
def ApplicationSpec.zero : ApplicationSpec :=
  ⟨GoString.empty, ApplicationGitRepository.zero, ApplicationGitRepository.zero, GoString.empty⟩

/-- Zero value of `ApplicationStatus`. -/
def ApplicationStatus.zero {Cond : Type} : ApplicationStatus Cond := ⟨none, GoString.empty⟩

/-- Zero value of `TypeMeta`. -/
def TypeMeta.zero : TypeMeta := ⟨GoString.empty, GoString.empty⟩

/-- Zero value of `Application`. -/
def Application.zero {Meta Cond : Type} (metaC : Ext Meta) : Application Meta Cond :=
  ⟨TypeMeta.zero, metaC.zero, ApplicationSpec.zero, ApplicationStatus.zero⟩

/-- Marshalled members of `ApplicationGitRepository`:
`url`, `branch,omitempty`, `context,omitempty`. -/
def ApplicationGitRepository.fields (r : ApplicationGitRepository) : Members :=
  always "url" (encString r.URL)
    ++ omitempty "branch" (isEmptyString r.Branch) (encString r.Branch)
    ++ omitempty "context" (isEmptyString r.Context) (encString r.Context)

/-- Marshalling of `ApplicationGitRepository`. -/
def ApplicationGitRepository.toJSON (r : ApplicationGitRepository) : JSON := .obj r.fields

/-- Marshalled members of `ApplicationSpec`: `displayName`,
`appModelRepository,omitempty`, `gitOpsRepository,omitempty`, `description,omitempty`.
The two repositories are struct values. -/
def ApplicationSpec.fields (a : ApplicationSpec) : Members :=
  always "displayName" (encString a.DisplayName)
    ++ omitempty "appModelRepository" (isEmptyStruct a.AppModelRepository) a.AppModelRepository.toJSON
    ++ omitempty "gitOpsRepository" (isEmptyStruct a.GitOpsRepository) a.GitOpsRepository.toJSON
    ++ omitempty "description" (isEmptyString a.Description) (encString a.Description)

/-- Marshalling of `ApplicationSpec`. -/
def ApplicationSpec.toJSON (a : ApplicationSpec) : JSON := .obj a.fields

/-- Marshalled members of `ApplicationStatus`: `conditions`, `devfile,omitempty`. -/
def ApplicationStatus.fields {Cond : Type} (condC : Ext Cond) (s : ApplicationStatus Cond) : Members :=
  always "conditions" (encSlice condC.enc s.Conditions)
    ++ omitempty "devfile" (isEmptyString s.Devfile) (encString s.Devfile)

/-- Marshalling of `ApplicationStatus`. -/
def ApplicationStatus.toJSON {Cond : Type} (condC : Ext Cond) (s : ApplicationStatus Cond) : JSON :=
  .obj (s.fields condC)

/-- Marshalled members of the inlined `TypeMeta`: `kind,omitempty`, `apiVersion,omitempty`. -/
def TypeMeta.fields (t : TypeMeta) : Members :=
  omitempty "kind" (isEmptyString t.Kind) (encString t.Kind)
    ++ omitempty "apiVersion" (isEmptyString t.APIVersion) (encString t.APIVersion)

/-- Marshalled members of `Application`: the inlined `TypeMeta`, `metadata,omitempty`,
`spec`, `status,omitempty`.  Metadata and status are struct values. -/
def Application.fields {Meta Cond : Type} (metaC : Ext Meta) (condC : Ext Cond)
    (a : Application Meta Cond) : Members :=
  a.TypeMeta.fields
    ++ omitempty "metadata" (isEmptyStruct a.ObjectMeta) (metaC.enc a.ObjectMeta)
    ++ always "spec" a.Spec.toJSON
    ++ omitempty "status" (isEmptyStruct a.Status) (a.Status.toJSON condC)

/-- Marshalling of `Application`. -/
def Application.toJSON {Meta Cond : Type} (metaC : Ext Meta) (condC : Ext Cond)
    (a : Application Meta Cond) : JSON :=
  .obj (a.fields metaC condC)

/-- Unmarshal one member into an `ApplicationGitRepository`. -/
def ApplicationGitRepository.set (r : ApplicationGitRepository) (k : String) (j : JSON) :
    Option ApplicationGitRepository :=
  if k = "url" then (decString r.URL j).map fun s => { r with URL := s }
  else if k = "branch" then (decString r.Branch j).map fun s => { r with Branch := s }
  else if k = "context" then (decString r.Context j).map fun s => { r with Context := s }
  else some r

/-- Unmarshal into an `ApplicationGitRepository`. -/
def ApplicationGitRepository.decode : ApplicationGitRepository → JSON → Option ApplicationGitRepository :=
  decStruct ApplicationGitRepository.set

/-- Unmarshal one member into an `ApplicationSpec`. -/
def ApplicationSpec.set (a : ApplicationSpec) (k : String) (j : JSON) : Option ApplicationSpec :=
  if k = "displayName" then (decString a.DisplayName j).map fun s => { a with DisplayName := s }
  else if k = "appModelRepository" then
    (ApplicationGitRepository.decode a.AppModelRepository j).map fun r => { a with AppModelRepository := r }
  else if k = "gitOpsRepository" then
    (ApplicationGitRepository.decode a.GitOpsRepository j).map fun r => { a with GitOpsRepository := r }
  else if k = "description" then (decString a.Description j).map fun s => { a with Description := s }
  else some a

/-- Unmarshal into an `ApplicationSpec`. -/
def ApplicationSpec.decode : ApplicationSpec → JSON → Option ApplicationSpec :=
  decStruct ApplicationSpec.set

/-- Unmarshal one member into an `ApplicationStatus`. -/
def ApplicationStatus.set {Cond : Type} (condC : Ext Cond) (s : ApplicationStatus Cond)
    (k : String) (j : JSON) : Option (ApplicationStatus Cond) :=
  if k = "conditions" then
    (decSlice condC.zero condC.dec s.Conditions j).map fun c => { s with Conditions := c }
  else if k = "devfile" then (decString s.Devfile j).map fun d => { s with Devfile := d }
  else some s

/-- Unmarshal into an `ApplicationStatus`. -/
def ApplicationStatus.decode {Cond : Type} (condC : Ext Cond) :
    ApplicationStatus Cond → JSON → Option (ApplicationStatus Cond) :=
  decStruct (ApplicationStatus.set condC)

/-- Unmarshal one member into an `Application`. -/
def Application.set {Meta Cond : Type} (metaC : Ext Meta) (condC : Ext Cond)
    (a : Application Meta Cond) (k : String) (j : JSON) : Option (Application Meta Cond) :=
  if k = "kind" then
    (decString a.TypeMeta.Kind j).map fun s => { a with TypeMeta := { a.TypeMeta with Kind := s } }
  else if k = "apiVersion" then
    (decString a.TypeMeta.APIVersion j).map fun s =>
      { a with TypeMeta := { a.TypeMeta with APIVersion := s } }
  else if k = "metadata" then (metaC.dec a.ObjectMeta j).map fun m => { a with ObjectMeta := m }
  else if k = "spec" then (ApplicationSpec.decode a.Spec j).map fun s => { a with Spec := s }
  else if k = "status" then
    (ApplicationStatus.decode condC a.Status j).map fun s => { a with Status := s }
  else some a

/-- Unmarshal into an `Application`. -/
def Application.decode {Meta Cond : Type} (metaC : Ext Meta) (condC : Ext Cond) :
    Application Meta Cond → JSON → Option (Application Meta Cond) :=
  decStruct (Application.set metaC condC)

/-- Unmarshal a document into a fresh `Application`. -/
def Application.unmarshal {Meta Cond : Type} (metaC : Ext Meta) (condC : Ext Cond) (j : JSON) :
    Option (Application Meta Cond) :=
  Application.decode metaC condC (Application.zero metaC) j

/-- Unmarshal a document into a fresh `ApplicationSpec`. -/
def ApplicationSpec.unmarshal (j : JSON) : Option ApplicationSpec :=
  ApplicationSpec.decode ApplicationSpec.zero j

/-! ## `snapshotenvironmentbinding_types.go` -/

/-- EnvVarPair describes environment variables to use for the component. -/
structure EnvVarPair where
  Name : GoString
  Value : GoString
  deriving DecidableEq, Repr

/-- BindingComponentConfiguration describes GitOps repository customizations that are
specific to the component-application-environment combination. -/
structure BindingComponentConfiguration (Res : Type) where
  Replicas : GoInt
  Resources : Option Res
  Env : Slice EnvVarPair
  deriving DecidableEq, Repr

/-- BindingComponent contains individual component data. -/
structure BindingComponent (Res : Type) where
  Name : GoString
  Configuration : BindingComponentConfiguration Res
  deriving DecidableEq, Repr

/-- SnapshotEnvironmentBindingSpec defines the desired state of SnapshotEnvironmentBinding. -/
structure SnapshotEnvironmentBindingSpec (Res : Type) where
  Application : GoString
  Environment : GoString
  Snapshot : GoString
  Components : Slice (BindingComponent Res)
  deriving DecidableEq, Repr

/-- BindingComponentGitOpsRepository is a reference to a GitOps repository. -/
structure BindingComponentGitOpsRepository where
  URL : GoString
  Branch : GoString
  Path : GoString
  GeneratedResources : Slice GoString
  CommitID : GoString
  deriving DecidableEq, Repr

/-- BindingComponentStatus contains the status of the components. -/
structure BindingComponentStatus where
  Name : GoString
  GitOpsRepository : BindingComponentGitOpsRepository
  deriving DecidableEq, Repr

/-- BindingStatusGitOpsDeployment describes an individual reference to a GitOpsDeployment. -/
structure BindingStatusGitOpsDeployment where
  ComponentName : GoString
  GitOpsDeployment : GoString
  deriving DecidableEq, Repr

/-- SnapshotEnvironmentBindingStatus defines the observed state of SnapshotEnvironmentBinding. -/
structure SnapshotEnvironmentBindingStatus (Cond : Type) where
  GitOpsDeployments : Slice BindingStatusGitOpsDeployment
  Components : Slice BindingComponentStatus
  GitOpsRepoConditions : Slice Cond
  BindingConditions : Slice Cond
  ComponentDeploymentConditions : Slice Cond
  deriving DecidableEq, Repr

/-- SnapshotEnvironmentBinding is the Schema for the snapshotenvironmentbindings API. -/
structure SnapshotEnvironmentBinding (Meta Res Cond : Type) where
  TypeMeta : TypeMeta
  ObjectMeta : Meta
  Spec : SnapshotEnvironmentBindingSpec Res
  Status : SnapshotEnvironmentBindingStatus Cond
  deriving DecidableEq, Repr

/-- Zero value of `EnvVarPair`. -/
def EnvVarPair.zero : EnvVarPair := ⟨GoString.empty, GoString.empty⟩

/-- Zero value of `BindingComponentConfiguration`. -/
def BindingComponentConfiguration.zero {Res : Type} : BindingComponentConfiguration Res :=
  ⟨GoInt.zero, none, none⟩

/-- Zero value of `BindingComponent`. -/
def BindingComponent.zero {Res : Type} : BindingComponent Res :=
  ⟨GoString.empty, BindingComponentConfiguration.zero⟩

/-- Zero value of `SnapshotEnvironmentBindingSpec`. -/
def SnapshotEnvironmentBindingSpec.zero {Res : Type} : SnapshotEnvironmentBindingSpec Res :=
  ⟨GoString.empty, GoString.empty, GoString.empty, none⟩

/-- Zero value of `BindingComponentGitOpsRepository`. -/
def BindingComponentGitOpsRepository.zero : BindingComponentGitOpsRepository :=
  ⟨GoString.empty, GoString.empty, GoString.empty, none, GoString.empty⟩

/-- Zero value of `BindingComponentStatus`. -/
def BindingComponentStatus.zero : BindingComponentStatus :=
  ⟨GoString.empty, BindingComponentGitOpsRepository.zero⟩

/-- Zero value of `BindingStatusGitOpsDeployment`. -/
def BindingStatusGitOpsDeployment.zero : BindingStatusGitOpsDeployment := ⟨GoString.empty, GoString.empty⟩

/-- Zero value of `SnapshotEnvironmentBindingStatus`. -/
def SnapshotEnvironmentBindingStatus.zero {Cond : Type} : SnapshotEnvironmentBindingStatus Cond :=
  ⟨none, none, none, none, none⟩

/-- Zero value of `SnapshotEnvironmentBinding`. -/
def SnapshotEnvironmentBinding.zero {Meta Res Cond : Type} (metaC : Ext Meta) :
    SnapshotEnvironmentBinding Meta Res Cond :=
  ⟨TypeMeta.zero, metaC.zero, SnapshotEnvironmentBindingSpec.zero, SnapshotEnvironmentBindingStatus.zero⟩

/-- Marshalled members of `EnvVarPair`: `name`, `value`. -/
def EnvVarPair.fields (e : EnvVarPair) : Members :=
  always "name" (encString e.Name) ++ always "value" (encString e.Value)

/-- Marshalling of `EnvVarPair`. -/
def EnvVarPair.toJSON (e : EnvVarPair) : JSON := .obj e.fields

/-- Marshalled members of `BindingComponentConfiguration`:
`replicas`, `resources,omitempty` (a pointer), `env,omitempty` (a slice). -/
def BindingComponentConfiguration.fields {Res : Type} (resC : Ext Res)
    (c : BindingComponentConfiguration Res) : Members :=
  always "replicas" (.num c.Replicas.val)
    ++ omitempty "resources" (isEmptyPtr c.Resources) (encPtr resC.enc c.Resources)
    ++ omitempty "env" (isEmptySlice c.Env) (encSlice EnvVarPair.toJSON c.Env)

/-- Marshalling of `BindingComponentConfiguration`. -/
def BindingComponentConfiguration.toJSON {Res : Type} (resC : Ext Res)
    (c : BindingComponentConfiguration Res) : JSON :=
  .obj (c.fields resC)

/-- Marshalled members of `BindingComponent`: `name`, `configuration,omitempty`.
The configuration is a struct value. -/
def BindingComponent.fields {Res : Type} (resC : Ext Res) (c : BindingComponent Res) : Members :=
  always "name" (encString c.Name)
    ++ omitempty "configuration" (isEmptyStruct c.Configuration) (c.Configuration.toJSON resC)

/-- Marshalling of `BindingComponent`. -/
def BindingComponent.toJSON {Res : Type} (resC : Ext Res) (c : BindingComponent Res) : JSON :=
  .obj (c.fields resC)

/-- Marshalled members of `SnapshotEnvironmentBindingSpec`:
`application`, `environment`, `snapshot`, `components`. -/
def SnapshotEnvironmentBindingSpec.fields {Res : Type} (resC : Ext Res)
    (s : SnapshotEnvironmentBindingSpec Res) : Members :=
  always "application" (encString s.Application)
    ++ always "environment" (encString s.Environment)
    ++ always "snapshot" (encString s.Snapshot)
    ++ always "components" (encSlice (BindingComponent.toJSON resC) s.Components)

/-- Marshalling of `SnapshotEnvironmentBindingSpec`. -/
def SnapshotEnvironmentBindingSpec.toJSON {Res : Type} (resC : Ext Res)
    (s : SnapshotEnvironmentBindingSpec Res) : JSON :=
  .obj (s.fields resC)

/-- Marshalled members of `BindingComponentGitOpsRepository`:
`url`, `branch`, `path`, `generatedResources`, `commitID`. -/
def BindingComponentGitOpsRepository.fields (r : BindingComponentGitOpsRepository) : Members :=
  always "url" (encString r.URL)
    ++ always "branch" (encString r.Branch)
    ++ always "path" (encString r.Path)
    ++ always "generatedResources" (encSlice encString r.GeneratedResources)
    ++ always "commitID" (encString r.CommitID)

/-- Marshalling of `BindingComponentGitOpsRepository`. -/
def BindingComponentGitOpsRepository.toJSON (r : BindingComponentGitOpsRepository) : JSON :=
  .obj r.fields

/-- Marshalled members of `BindingComponentStatus`: `name`, `gitopsRepository`. -/
def BindingComponentStatus.fields (c : BindingComponentStatus) : Members :=
  always "name" (encString c.Name) ++ always "gitopsRepository" c.GitOpsRepository.toJSON

/-- Marshalling of `BindingComponentStatus`. -/
def BindingComponentStatus.toJSON (c : BindingComponentStatus) : JSON := .obj c.fields

/-- Marshalled members of `BindingStatusGitOpsDeployment`:
`componentName`, `gitopsDeployment,omitempty`. -/
def BindingStatusGitOpsDeployment.fields (d : BindingStatusGitOpsDeployment) : Members :=
  always "componentName" (encString d.ComponentName)
    ++ omitempty "gitopsDeployment" (isEmptyString d.GitOpsDeployment) (encString d.GitOpsDeployment)

/-- Marshalling of `BindingStatusGitOpsDeployment`. -/
def BindingStatusGitOpsDeployment.toJSON (d : BindingStatusGitOpsDeployment) : JSON := .obj d.fields

/-- Marshalled members of `SnapshotEnvironmentBindingStatus`: `gitopsDeployments`,
`components`, `gitopsRepoConditions`, `bindingConditions`,
`componentDeploymentConditions`, every one a slice tagged `omitempty`. -/
def SnapshotEnvironmentBindingStatus.fields {Cond : Type} (condC : Ext Cond)
    (s : SnapshotEnvironmentBindingStatus Cond) : Members :=
  omitempty "gitopsDeployments" (isEmptySlice s.GitOpsDeployments)
      (encSlice BindingStatusGitOpsDeployment.toJSON s.GitOpsDeployments)
    ++ omitempty "components" (isEmptySlice s.Components)
      (encSlice BindingComponentStatus.toJSON s.Components)
    ++ omitempty "gitopsRepoConditions" (isEmptySlice s.GitOpsRepoConditions)
      (encSlice condC.enc s.GitOpsRepoConditions)
    ++ omitempty "bindingConditions" (isEmptySlice s.BindingConditions)
      (encSlice condC.enc s.BindingConditions)
    ++ omitempty "componentDeploymentConditions" (isEmptySlice s.ComponentDeploymentConditions)
      (encSlice condC.enc s.ComponentDeploymentConditions)

/-- Marshalling of `SnapshotEnvironmentBindingStatus`. -/
def SnapshotEnvironmentBindingStatus.toJSON {Cond : Type} (condC : Ext Cond)
    (s : SnapshotEnvironmentBindingStatus Cond) : JSON :=
  .obj (s.fields condC)

/-- Marshalled members of `SnapshotEnvironmentBinding`: the inlined `TypeMeta`,
`metadata,omitempty`, `spec`, `status,omitempty`.  Metadata and status are struct values. -/
def SnapshotEnvironmentBinding.fields {Meta Res Cond : Type} (metaC : Ext Meta) (resC : Ext Res)
    (condC : Ext Cond) (b : SnapshotEnvironmentBinding Meta Res Cond) : Members :=
  b.TypeMeta.fields
    ++ omitempty "metadata" (isEmptyStruct b.ObjectMeta) (metaC.enc b.ObjectMeta)
    ++ always "spec" (b.Spec.toJSON resC)
    ++ omitempty "status" (isEmptyStruct b.Status) (b.Status.toJSON condC)

/-- Marshalling of `SnapshotEnvironmentBinding`. -/
def SnapshotEnvironmentBinding.toJSON {Meta Res Cond : Type} (metaC : Ext Meta) (resC : Ext Res)
    (condC : Ext Cond) (b : SnapshotEnvironmentBinding Meta Res Cond) : JSON :=
  .obj (b.fields metaC resC condC)

/-- Unmarshal one member into an `EnvVarPair`. -/
def EnvVarPair.set (e : EnvVarPair) (k : String) (j : JSON) : Option EnvVarPair :=
  if k = "name" then (decString e.Name j).map fun s => { e with Name := s }
  else if k = "value" then (decString e.Value j).map fun s => { e with Value := s }
  else some e

/-- Unmarshal into an `EnvVarPair`. -/
def EnvVarPair.decode : EnvVarPair → JSON → Option EnvVarPair := decStruct EnvVarPair.set

/-- Unmarshal one member into a `BindingComponentConfiguration`. -/
def BindingComponentConfiguration.set {Res : Type} (resC : Ext Res)
    (c : BindingComponentConfiguration Res) (k : String) (j : JSON) :
    Option (BindingComponentConfiguration Res) :=
  if k = "replicas" then (decInt c.Replicas j).map fun n => { c with Replicas := n }
  else if k = "resources" then
    (decPtr resC.zero resC.dec c.Resources j).map fun r => { c with Resources := r }
  else if k = "env" then
    (decSlice EnvVarPair.zero EnvVarPair.decode c.Env j).map fun e => { c with Env := e }
  else some c

/-- Unmarshal into a `BindingComponentConfiguration`. -/
def BindingComponentConfiguration.decode {Res : Type} (resC : Ext Res) :
    BindingComponentConfiguration Res → JSON → Option (BindingComponentConfiguration Res) :=
  decStruct (BindingComponentConfiguration.set resC)

/-- Unmarshal one member into a `BindingComponent`. -/
def BindingComponent.set {Res : Type} (resC : Ext Res) (c : BindingComponent Res) (k : String)
    (j : JSON) : Option (BindingComponent Res) :=
  if k = "name" then (decString c.Name j).map fun s => { c with Name := s }
  else if k = "configuration" then
    (BindingComponentConfiguration.decode resC c.Configuration j).map fun x =>
      { c with Configuration := x }
  else some c

/-- Unmarshal into a `BindingComponent`. -/
def BindingComponent.decode {Res : Type} (resC : Ext Res) :
    BindingComponent Res → JSON → Option (BindingComponent Res) :=
  decStruct (BindingComponent.set resC)

/-- Unmarshal one member into a `SnapshotEnvironmentBindingSpec`. -/
def SnapshotEnvironmentBindingSpec.set {Res : Type} (resC : Ext Res)
    (s : SnapshotEnvironmentBindingSpec Res) (k : String) (j : JSON) :
    Option (SnapshotEnvironmentBindingSpec Res) :=
  if k = "application" then (decString s.Application j).map fun x => { s with Application := x }
  else if k = "environment" then (decString s.Environment j).map fun x => { s with Environment := x }
  else if k = "snapshot" then (decString s.Snapshot j).map fun x => { s with Snapshot := x }
  else if k = "components" then
    (decSlice BindingComponent.zero (BindingComponent.decode resC) s.Components j).map fun x =>
      { s with Components := x }
  else some s

/-- Unmarshal into a `SnapshotEnvironmentBindingSpec`. -/
def SnapshotEnvironmentBindingSpec.decode {Res : Type} (resC : Ext Res) :
    SnapshotEnvironmentBindingSpec Res → JSON → Option (SnapshotEnvironmentBindingSpec Res) :=
  decStruct (SnapshotEnvironmentBindingSpec.set resC)

/-- Unmarshal one member into a `BindingComponentGitOpsRepository`. -/
def BindingComponentGitOpsRepository.set (r : BindingComponentGitOpsRepository) (k : String)
    (j : JSON) : Option BindingComponentGitOpsRepository :=
  if k = "url" then (decString r.URL j).map fun x => { r with URL := x }
  else if k = "branch" then (decString r.Branch j).map fun x => { r with Branch := x }
  else if k = "path" then (decString r.Path j).map fun x => { r with Path := x }
  else if k = "generatedResources" then
    (decSlice GoString.empty decString r.GeneratedResources j).map fun x =>
      { r with GeneratedResources := x }
  else if k = "commitID" then (decString r.CommitID j).map fun x => { r with CommitID := x }
  else some r

/-- Unmarshal into a `BindingComponentGitOpsRepository`. -/
def BindingComponentGitOpsRepository.decode :
    BindingComponentGitOpsRepository → JSON → Option BindingComponentGitOpsRepository :=
  decStruct BindingComponentGitOpsRepository.set

/-- Unmarshal one member into a `BindingComponentStatus`. -/
def BindingComponentStatus.set (c : BindingComponentStatus) (k : String) (j : JSON) :
    Option BindingComponentStatus :=
  if k = "name" then (decString c.Name j).map fun x => { c with Name := x }
  else if k = "gitopsRepository" then
    (BindingComponentGitOpsRepository.decode c.GitOpsRepository j).map fun x =>
      { c with GitOpsRepository := x }
  else some c

/-- Unmarshal into a `BindingComponentStatus`. -/
def BindingComponentStatus.decode : BindingComponentStatus → JSON → Option BindingComponentStatus :=
  decStruct BindingComponentStatus.set

/-- Unmarshal one member into a `BindingStatusGitOpsDeployment`. -/
def BindingStatusGitOpsDeployment.set (d : BindingStatusGitOpsDeployment) (k : String) (j : JSON) :
    Option BindingStatusGitOpsDeployment :=
  if k = "componentName" then (decString d.ComponentName j).map fun x => { d with ComponentName := x }
  else if k = "gitopsDeployment" then
    (decString d.GitOpsDeployment j).map fun x => { d with GitOpsDeployment := x }
  else some d

/-- Unmarshal into a `BindingStatusGitOpsDeployment`. -/
def BindingStatusGitOpsDeployment.decode :
    BindingStatusGitOpsDeployment → JSON → Option BindingStatusGitOpsDeployment :=
  decStruct BindingStatusGitOpsDeployment.set

/-- Unmarshal one member into a `SnapshotEnvironmentBindingStatus`. -/
def SnapshotEnvironmentBindingStatus.set {Cond : Type} (condC : Ext Cond)
    (s : SnapshotEnvironmentBindingStatus Cond) (k : String) (j : JSON) :
    Option (SnapshotEnvironmentBindingStatus Cond) :=
  if k = "gitopsDeployments" then
    (decSlice BindingStatusGitOpsDeployment.zero BindingStatusGitOpsDeployment.decode
      s.GitOpsDeployments j).map fun x =>
      { s with GitOpsDeployments := x }
  else if k = "components" then
    (decSlice BindingComponentStatus.zero BindingComponentStatus.decode s.Components j).map fun x =>
      { s with Components := x }
  else if k = "gitopsRepoConditions" then
    (decSlice condC.zero condC.dec s.GitOpsRepoConditions j).map fun x =>
      { s with GitOpsRepoConditions := x }
  else if k = "bindingConditions" then
    (decSlice condC.zero condC.dec s.BindingConditions j).map fun x =>
      { s with BindingConditions := x }
  else if k = "componentDeploymentConditions" then
    (decSlice condC.zero condC.dec s.ComponentDeploymentConditions j).map fun x =>
      { s with ComponentDeploymentConditions := x }
  else some s

/-- Unmarshal into a `SnapshotEnvironmentBindingStatus`. -/
def SnapshotEnvironmentBindingStatus.decode {Cond : Type} (condC : Ext Cond) :
    SnapshotEnvironmentBindingStatus Cond → JSON → Option (SnapshotEnvironmentBindingStatus Cond) :=
  decStruct (SnapshotEnvironmentBindingStatus.set condC)

/-- Unmarshal one member into a `SnapshotEnvironmentBinding`. -/
def SnapshotEnvironmentBinding.set {Meta Res Cond : Type} (metaC : Ext Meta) (resC : Ext Res)
    (condC : Ext Cond) (b : SnapshotEnvironmentBinding Meta Res Cond) (k : String) (j : JSON) :
    Option (SnapshotEnvironmentBinding Meta Res Cond) :=
  if k = "kind" then
    (decString b.TypeMeta.Kind j).map fun s => { b with TypeMeta := { b.TypeMeta with Kind := s } }
  else if k = "apiVersion" then
    (decString b.TypeMeta.APIVersion j).map fun s =>
      { b with TypeMeta := { b.TypeMeta with APIVersion := s } }
  else if k = "metadata" then (metaC.dec b.ObjectMeta j).map fun m => { b with ObjectMeta := m }
  else if k = "spec" then
    (SnapshotEnvironmentBindingSpec.decode resC b.Spec j).map fun s => { b with Spec := s }
  else if k = "status" then
    (SnapshotEnvironmentBindingStatus.decode condC b.Status j).map fun s => { b with Status := s }
  else some b

/-- Unmarshal into a `SnapshotEnvironmentBinding`. -/
def SnapshotEnvironmentBinding.decode {Meta Res Cond : Type} (metaC : Ext Meta) (resC : Ext Res)
    (condC : Ext Cond) :
    SnapshotEnvironmentBinding Meta Res Cond → JSON → Option (SnapshotEnvironmentBinding Meta Res Cond) :=
  decStruct (SnapshotEnvironmentBinding.set metaC resC condC)

/-- Unmarshal a document into a fresh `SnapshotEnvironmentBinding`. -/
def SnapshotEnvironmentBinding.unmarshal {Meta Res Cond : Type} (metaC : Ext Meta) (resC : Ext Res)
    (condC : Ext Cond) (j : JSON) : Option (SnapshotEnvironmentBinding Meta Res Cond) :=
  SnapshotEnvironmentBinding.decode metaC resC condC (SnapshotEnvironmentBinding.zero metaC) j

/-- Unmarshal a document into a fresh `SnapshotEnvironmentBindingSpec`. -/
def SnapshotEnvironmentBindingSpec.unmarshal {Res : Type} (resC : Ext Res) (j : JSON) :
    Option (SnapshotEnvironmentBindingSpec Res) :=
  SnapshotEnvironmentBindingSpec.decode resC SnapshotEnvironmentBindingSpec.zero j

/-! ## Stand-ins for the imported types -/

/-- Modelled from the spec: the imported `metav1.ObjectMeta`, the envelope a resource
inherits its identity from, cut to that identity: name and namespace, both
tagged `omitempty`. -/
structure ObjectMeta where
  Name : GoString
  Namespace : GoString
  deriving DecidableEq, Repr

/-- Modelled from the spec: the imported `metav1.Time` that stamps a condition: an
instant, held as the RFC 3339 text of its whole seconds together with the nanoseconds
within that second.  The imported marshaller writes the text only, and `null` for the
zero time. -/
structure Time where
  Instant : GoString
  Nanos : Nat
  deriving DecidableEq, Repr

/-- Modelled from the spec: the imported `metav1.Condition`, a typed status entry:
type, status, last transition time, reason, message. -/
structure Condition where
  CondType : GoString
  Status : GoString
  LastTransitionTime : Time
  Reason : GoString
  Message : GoString
  deriving DecidableEq, Repr

/-- Modelled from the spec: one side of the compute request/limit pair, a map from
resource name to quantity, cut to the entries `cpu` and `memory`; a quantity is
held as its text and the empty text stands for an absent entry. -/
structure ResourceList where
  Cpu : GoString
  Memory : GoString
  deriving DecidableEq, Repr

/-- Modelled from the spec: the imported `corev1.ResourceRequirements`, the compute
request/limit pair; both maps are tagged `omitempty`. -/
structure ResourceRequirements where
  Limits : ResourceList
  Requests : ResourceList
  deriving DecidableEq, Repr

/-- Marshalled members of the `ObjectMeta` stand-in. -/
def ObjectMeta.fields (m : ObjectMeta) : Members :=
  omitempty "name" (isEmptyString m.Name) (encString m.Name)
    ++ omitempty "namespace" (isEmptyString m.Namespace) (encString m.Namespace)

/-- Unmarshal one member into the `ObjectMeta` stand-in. -/
def ObjectMeta.set (m : ObjectMeta) (k : String) (j : JSON) : Option ObjectMeta :=
  if k = "name" then (decString m.Name j).map fun s => { m with Name := s }
  else if k = "namespace" then (decString m.Namespace j).map fun s => { m with Namespace := s }
  else some m

/-- The `ObjectMeta` stand-in as an imported type. -/
def objectMetaExt : Ext ObjectMeta :=
  ⟨⟨GoString.empty, GoString.empty⟩, fun m => .obj m.fields, decStruct ObjectMeta.set⟩

/-- The zero time. -/
def Time.zero : Time := ⟨GoString.empty, 0⟩

/-- Marshalling of the `Time` stand-in: the text of the whole seconds; the nanoseconds
are not written. -/
def Time.toJSON (t : Time) : JSON :=
  if t = Time.zero then .null else encString t.Instant

/-- Unmarshalling of the `Time` stand-in: the instant that the text names, at zero
nanoseconds; `null` gives the zero time. -/
def Time.decode : JSON → Option Time
  | .str s => some ⟨GoString.ofText s, 0⟩
  | .null => some Time.zero
  | _ => none

/-- Marshalled members of the `Condition` stand-in. -/
def Condition.fields (c : Condition) : Members :=
  always "type" (encString c.CondType)
    ++ always "status" (encString c.Status)
    ++ always "lastTransitionTime" c.LastTransitionTime.toJSON
    ++ always "reason" (encString c.Reason)
    ++ always "message" (encString c.Message)

/-- Unmarshal one member into the `Condition` stand-in. -/
def Condition.set (c : Condition) (k : String) (j : JSON) : Option Condition :=
  if k = "type" then (decString c.CondType j).map fun s => { c with CondType := s }
  else if k = "status" then (decString c.Status j).map fun s => { c with Status := s }
  else if k = "lastTransitionTime" then
    (Time.decode j).map fun t => { c with LastTransitionTime := t }
  else if k = "reason" then (decString c.Reason j).map fun s => { c with Reason := s }
  else if k = "message" then (decString c.Message j).map fun s => { c with Message := s }
  else some c

/-- The `Condition` stand-in as an imported type. -/
def conditionExt : Ext Condition :=
  ⟨⟨GoString.empty, GoString.empty, Time.zero, GoString.empty, GoString.empty⟩,
    fun c => .obj c.fields, decStruct Condition.set⟩

/-- Marshalled members of a `ResourceList` stand-in. -/
def ResourceList.fields (l : ResourceList) : Members :=
  omitempty "cpu" (isEmptyString l.Cpu) (encString l.Cpu)
    ++ omitempty "memory" (isEmptyString l.Memory) (encString l.Memory)

/-- Go `isEmptyValue` on the map a `ResourceList` stands for: no entries. -/
def ResourceList.isEmpty (l : ResourceList) : Bool := l.fields.isEmpty

/-- Unmarshal one member into a `ResourceList` stand-in. -/
def ResourceList.set (l : ResourceList) (k : String) (j : JSON) : Option ResourceList :=
  if k = "cpu" then (decString l.Cpu j).map fun s => { l with Cpu := s }
  else if k = "memory" then (decString l.Memory j).map fun s => { l with Memory := s }
  else some l

/-- Marshalled members of the `ResourceRequirements` stand-in. -/
def ResourceRequirements.fields (r : ResourceRequirements) : Members :=
  omitempty "limits" r.Limits.isEmpty (.obj r.Limits.fields)
    ++ omitempty "requests" r.Requests.isEmpty (.obj r.Requests.fields)

/-- Unmarshal one member into the `ResourceRequirements` stand-in. -/
def ResourceRequirements.set (r : ResourceRequirements) (k : String) (j : JSON) :
    Option ResourceRequirements :=
  if k = "limits" then (decStruct ResourceList.set r.Limits j).map fun l => { r with Limits := l }
  else if k = "requests" then
    (decStruct ResourceList.set r.Requests j).map fun l => { r with Requests := l }
  else some r

/-- The `ResourceRequirements` stand-in as an imported type. -/
def resourceRequirementsExt : Ext ResourceRequirements :=
  ⟨⟨⟨GoString.empty, GoString.empty⟩, ⟨GoString.empty, GoString.empty⟩⟩,
    fun r => .obj r.fields, decStruct ResourceRequirements.set⟩

/-! ## A value as it is read back -/

/-- The slice an `omitempty` slice field is read back as: an empty slice that is
not nil is not written, and so comes back nil. -/
def Slice.canon {α : Type} : Slice α → Slice α
  | some [] => none
  | s => s

/-- The elements of a slice, each as it is read back. -/
def Slice.mapElems {α : Type} (f : α → α) (s : Slice α) : Slice α := s.map (List.map f)

/-- A git repository as it is read back. -/
def ApplicationGitRepository.readBack (r : ApplicationGitRepository) : ApplicationGitRepository :=
  ⟨r.URL.readBack, r.Branch.readBack, r.Context.readBack⟩

/-- An application spec as it is read back. -/
def ApplicationSpec.readBack (a : ApplicationSpec) : ApplicationSpec :=
  ⟨a.DisplayName.readBack, a.AppModelRepository.readBack, a.GitOpsRepository.readBack,
    a.Description.readBack⟩

/-- An application status as it is read back, its conditions taken to survive. -/
def ApplicationStatus.readBack {Cond : Type} (s : ApplicationStatus Cond) : ApplicationStatus Cond :=
  ⟨s.Conditions, s.Devfile.readBack⟩

/-- The inlined type information as it is read back. -/
def TypeMeta.readBack (t : TypeMeta) : TypeMeta := ⟨t.Kind.readBack, t.APIVersion.readBack⟩

/-- An application as it is read back, its imported values taken to survive. -/
def Application.readBack {Meta Cond : Type} (a : Application Meta Cond) : Application Meta Cond :=
  ⟨a.TypeMeta.readBack, a.ObjectMeta, a.Spec.readBack, a.Status.readBack⟩

/-- An environment variable as it is read back. -/
def EnvVarPair.readBack (e : EnvVarPair) : EnvVarPair := ⟨e.Name.readBack, e.Value.readBack⟩

/-- A configuration as it is read back. -/
def BindingComponentConfiguration.readBack {Res : Type} (c : BindingComponentConfiguration Res) :
    BindingComponentConfiguration Res :=
  ⟨c.Replicas, c.Resources, (c.Env.mapElems EnvVarPair.readBack).canon⟩

/-- A component as it is read back. -/
def BindingComponent.readBack {Res : Type} (c : BindingComponent Res) : BindingComponent Res :=
  ⟨c.Name.readBack, c.Configuration.readBack⟩

/-- A binding spec as it is read back. -/
def SnapshotEnvironmentBindingSpec.readBack {Res : Type} (s : SnapshotEnvironmentBindingSpec Res) :
    SnapshotEnvironmentBindingSpec Res :=
  ⟨s.Application.readBack, s.Environment.readBack, s.Snapshot.readBack,
    s.Components.mapElems BindingComponent.readBack⟩

/-- A GitOps repository reference as it is read back. -/
def BindingComponentGitOpsRepository.readBack (r : BindingComponentGitOpsRepository) :
    BindingComponentGitOpsRepository :=
  ⟨r.URL.readBack, r.Branch.readBack, r.Path.readBack,
    r.GeneratedResources.mapElems GoString.readBack, r.CommitID.readBack⟩

/-- A component status as it is read back. -/
def BindingComponentStatus.readBack (c : BindingComponentStatus) : BindingComponentStatus :=
  ⟨c.Name.readBack, c.GitOpsRepository.readBack⟩

/-- A deployment reference as it is read back. -/
def BindingStatusGitOpsDeployment.readBack (d : BindingStatusGitOpsDeployment) :
    BindingStatusGitOpsDeployment :=
  ⟨d.ComponentName.readBack, d.GitOpsDeployment.readBack⟩

/-- A binding status as it is read back, its conditions taken to survive. -/
def SnapshotEnvironmentBindingStatus.readBack {Cond : Type}
    (s : SnapshotEnvironmentBindingStatus Cond) : SnapshotEnvironmentBindingStatus Cond :=
  ⟨(s.GitOpsDeployments.mapElems BindingStatusGitOpsDeployment.readBack).canon,
    (s.Components.mapElems BindingComponentStatus.readBack).canon,
    s.GitOpsRepoConditions.canon, s.BindingConditions.canon,
    s.ComponentDeploymentConditions.canon⟩

/-- A binding as it is read back, its imported values taken to survive. -/
def SnapshotEnvironmentBinding.readBack {Meta Res Cond : Type}
    (b : SnapshotEnvironmentBinding Meta Res Cond) : SnapshotEnvironmentBinding Meta Res Cond :=
  ⟨b.TypeMeta.readBack, b.ObjectMeta, b.Spec.readBack, b.Status.readBack⟩

/-! ## Predicates used by the statements -/

/-- Every string of a git repository is valid UTF-8. -/
def ApplicationGitRepository.ValidText (r : ApplicationGitRepository) : Prop :=
  r.URL.Valid ∧ r.Branch.Valid ∧ r.Context.Valid

/-- Every string of an application spec is valid UTF-8. -/
def ApplicationSpec.ValidText (a : ApplicationSpec) : Prop :=
  a.DisplayName.Valid ∧ a.AppModelRepository.ValidText ∧ a.GitOpsRepository.ValidText
    ∧ a.Description.Valid

/-- Every string of the inlined type information is valid UTF-8. -/
def TypeMeta.ValidText (t : TypeMeta) : Prop := t.Kind.Valid ∧ t.APIVersion.Valid

/-- Every string that an application holds in the fields this package declares is
valid UTF-8. -/
def Application.ValidText {Meta Cond : Type} (a : Application Meta Cond) : Prop :=
  a.TypeMeta.ValidText ∧ a.Spec.ValidText ∧ a.Status.Devfile.Valid

/-- Every string of an environment variable is valid UTF-8. -/
def EnvVarPair.ValidText (e : EnvVarPair) : Prop := e.Name.Valid ∧ e.Value.Valid

/-- Every string of a component is valid UTF-8. -/
def BindingComponent.ValidText {Res : Type} (c : BindingComponent Res) : Prop :=
  c.Name.Valid ∧ ∀ e ∈ c.Configuration.Env.toList, e.ValidText

/-- Every string of a binding spec is valid UTF-8. -/
def SnapshotEnvironmentBindingSpec.ValidText {Res : Type} (s : SnapshotEnvironmentBindingSpec Res) :
    Prop :=
  s.Application.Valid ∧ s.Environment.Valid ∧ s.Snapshot.Valid
    ∧ ∀ c ∈ s.Components.toList, c.ValidText

/-- Every string of a component status is valid UTF-8. -/
def BindingComponentStatus.ValidText (c : BindingComponentStatus) : Prop :=
  c.Name.Valid ∧ c.GitOpsRepository.URL.Valid ∧ c.GitOpsRepository.Branch.Valid
    ∧ c.GitOpsRepository.Path.Valid ∧ c.GitOpsRepository.CommitID.Valid
    ∧ ∀ g ∈ c.GitOpsRepository.GeneratedResources.toList, g.Valid

/-- Every string of a deployment reference is valid UTF-8. -/
def BindingStatusGitOpsDeployment.ValidText (d : BindingStatusGitOpsDeployment) : Prop :=
  d.ComponentName.Valid ∧ d.GitOpsDeployment.Valid

/-- Every string that a binding status holds in the fields this package declares is
valid UTF-8. -/
def SnapshotEnvironmentBindingStatus.ValidText {Cond : Type}
    (s : SnapshotEnvironmentBindingStatus Cond) : Prop :=
  (∀ d ∈ s.GitOpsDeployments.toList, d.ValidText) ∧ ∀ c ∈ s.Components.toList, c.ValidText

/-- Every string that a binding holds in the fields this package declares is valid
UTF-8. -/
def SnapshotEnvironmentBinding.ValidText {Meta Res Cond : Type}
    (b : SnapshotEnvironmentBinding Meta Res Cond) : Prop :=
  b.TypeMeta.ValidText ∧ b.Spec.ValidText ∧ b.Status.ValidText

instance (r : ApplicationGitRepository) : Decidable r.ValidText := by
  unfold ApplicationGitRepository.ValidText; infer_instance

instance (a : ApplicationSpec) : Decidable a.ValidText := by
  unfold ApplicationSpec.ValidText; infer_instance

instance (t : TypeMeta) : Decidable t.ValidText := by
  unfold TypeMeta.ValidText; infer_instance

instance {Meta Cond : Type} (a : Application Meta Cond) : Decidable a.ValidText := by
  unfold Application.ValidText; infer_instance

instance (e : EnvVarPair) : Decidable e.ValidText := by
  unfold EnvVarPair.ValidText; infer_instance

instance {Res : Type} (c : BindingComponent Res) : Decidable c.ValidText := by
  unfold BindingComponent.ValidText; infer_instance

instance {Res : Type} (s : SnapshotEnvironmentBindingSpec Res) : Decidable s.ValidText := by
  unfold SnapshotEnvironmentBindingSpec.ValidText; infer_instance

instance (c : BindingComponentStatus) : Decidable c.ValidText := by
  unfold BindingComponentStatus.ValidText; infer_instance

instance (d : BindingStatusGitOpsDeployment) : Decidable d.ValidText := by
  unfold BindingStatusGitOpsDeployment.ValidText; infer_instance

instance {Cond : Type} (s : SnapshotEnvironmentBindingStatus Cond) : Decidable s.ValidText := by
  unfold SnapshotEnvironmentBindingStatus.ValidText; infer_instance

instance {Meta Res Cond : Type} (b : SnapshotEnvironmentBinding Meta Res Cond) :
    Decidable b.ValidText := by
  unfold SnapshotEnvironmentBinding.ValidText; infer_instance

/-- A configuration with its env slice as an `omitempty` slice is read back. -/
def BindingComponentConfiguration.canon {Res : Type} (c : BindingComponentConfiguration Res) :
    BindingComponentConfiguration Res :=
  { c with Env := c.Env.canon }

/-- A component with its env slice as an `omitempty` slice is read back. -/
def BindingComponent.canon {Res : Type} (c : BindingComponent Res) : BindingComponent Res :=
  { c with Configuration := c.Configuration.canon }

/-- A binding spec with every env slice as an `omitempty` slice is read back. -/
def SnapshotEnvironmentBindingSpec.canon {Res : Type} (s : SnapshotEnvironmentBindingSpec Res) :
    SnapshotEnvironmentBindingSpec Res :=
  { s with Components := s.Components.mapElems BindingComponent.canon }

/-- Two slices are the same up to nil against empty: they hold the same elements. -/
def Slice.Same {α : Type} (s t : Slice α) : Prop := s.toList = t.toList

/-- Two configurations are equal when a nil and an empty `Env` are taken as equal. -/
def BindingComponentConfiguration.Same {Res : Type} (a b : BindingComponentConfiguration Res) :
    Prop :=
  a.Replicas = b.Replicas ∧ a.Resources = b.Resources ∧ a.Env.Same b.Env

/-- Two components are equal when a nil and an empty sequence are taken as equal. -/
def BindingComponent.Same {Res : Type} (a b : BindingComponent Res) : Prop :=
  a.Name = b.Name ∧ a.Configuration.Same b.Configuration

/-- Two binding specs are equal when a nil and an empty sequence are taken as equal:
the same references and, position by position, the same components. -/
def SnapshotEnvironmentBindingSpec.Same {Res : Type} (a b : SnapshotEnvironmentBindingSpec Res) :
    Prop :=
  a.Application = b.Application ∧ a.Environment = b.Environment ∧ a.Snapshot = b.Snapshot
    ∧ List.Forall₂ BindingComponent.Same a.Components.toList b.Components.toList

/-- Every imported value held by an `Application` survives its own marshalling. -/
def Application.ExtFaithful {Meta Cond : Type} (metaC : Ext Meta) (condC : Ext Cond)
    (a : Application Meta Cond) : Prop :=
  metaC.Faithful a.ObjectMeta ∧ ∀ c ∈ a.Status.Conditions.toList, condC.Faithful c

/-- Every imported value held by a binding spec survives its own marshalling. -/
def SnapshotEnvironmentBindingSpec.ExtFaithful {Res : Type} (resC : Ext Res)
    (s : SnapshotEnvironmentBindingSpec Res) : Prop :=
  ∀ c ∈ s.Components.toList, ∀ r ∈ c.Configuration.Resources, resC.Faithful r

/-- Every imported value held by a binding status survives its own marshalling. -/
def SnapshotEnvironmentBindingStatus.ExtFaithful {Cond : Type} (condC : Ext Cond)
    (s : SnapshotEnvironmentBindingStatus Cond) : Prop :=
  (∀ c ∈ s.GitOpsRepoConditions.toList, condC.Faithful c)
    ∧ (∀ c ∈ s.BindingConditions.toList, condC.Faithful c)
    ∧ (∀ c ∈ s.ComponentDeploymentConditions.toList, condC.Faithful c)

/-- Every imported value held by a binding survives its own marshalling. -/
def SnapshotEnvironmentBinding.ExtFaithful {Meta Res Cond : Type} (metaC : Ext Meta)
    (resC : Ext Res) (condC : Ext Cond) (b : SnapshotEnvironmentBinding Meta Res Cond) : Prop :=
  metaC.Faithful b.ObjectMeta ∧ b.Spec.ExtFaithful resC ∧ b.Status.ExtFaithful condC

/-- All optional fields of an application are populated: both repositories with url,
branch and context, a description, a devfile and at least one condition. -/
def Application.Populated {Meta Cond : Type} (a : Application Meta Cond) : Prop :=
  a.Spec.AppModelRepository.URL ≠ GoString.empty
    ∧ a.Spec.AppModelRepository.Branch ≠ GoString.empty
    ∧ a.Spec.AppModelRepository.Context ≠ GoString.empty
    ∧ a.Spec.GitOpsRepository.URL ≠ GoString.empty
    ∧ a.Spec.GitOpsRepository.Branch ≠ GoString.empty
    ∧ a.Spec.GitOpsRepository.Context ≠ GoString.empty
    ∧ a.Spec.Description ≠ GoString.empty
    ∧ a.Status.Devfile ≠ GoString.empty
    ∧ a.Status.Conditions.toList ≠ []

/-- All optional fields of a binding are populated: every component has resources and a
non-empty env list, and the status has non-empty gitopsDeployments, components and
condition lists. -/
def SnapshotEnvironmentBinding.Populated {Meta Res Cond : Type}
    (b : SnapshotEnvironmentBinding Meta Res Cond) : Prop :=
  (∀ c ∈ b.Spec.Components.toList,
      c.Configuration.Resources.isSome = true ∧ c.Configuration.Env.toList ≠ [])
    ∧ b.Status.GitOpsDeployments.toList ≠ []
    ∧ b.Status.Components.toList ≠ []
    ∧ b.Status.GitOpsRepoConditions.toList ≠ []
    ∧ b.Status.BindingConditions.toList ≠ []
    ∧ b.Status.ComponentDeploymentConditions.toList ≠ []

/-- A condition sequence holds at most one entry per condition type. -/
def UniqueTypes {Cond : Type} (condType : Cond → GoString) (s : Slice Cond) : Prop :=
  (s.toList.map condType).Nodup

/-! ## Documents whose present members have the declared types -/

/-- A document a string field accepts. -/
def JSON.fitsString : JSON → Bool
  | .str _ => true
  | .null => true
  | _ => false

/-- A document an `int` field accepts. -/
def JSON.fitsInt : JSON → Bool
  | .num n => decide (inInt64 n)
  | .null => true
  | _ => false

/-- A document a struct field accepts, given what each of its members must be. -/
def fitsStruct (member : String → JSON → Bool) : JSON → Bool
  | .obj ms => ms.all fun kv => member kv.1 kv.2
  | .null => true
  | _ => false

/-- A document a slice field accepts, given what each element must be. -/
def fitsSlice (elem : JSON → Bool) : JSON → Bool
  | .arr js => js.all elem
  | .null => true
  | _ => false

/-- Declared types of the members of `ApplicationGitRepository`. -/
def ApplicationGitRepository.fitsMember (k : String) (j : JSON) : Bool :=
  if k = "url" ∨ k = "branch" ∨ k = "context" then j.fitsString else true

/-- Declared types of the members of `ApplicationSpec`. -/
def ApplicationSpec.fitsMember (k : String) (j : JSON) : Bool :=
  if k = "displayName" ∨ k = "description" then j.fitsString
  else if k = "appModelRepository" ∨ k = "gitOpsRepository" then
    fitsStruct ApplicationGitRepository.fitsMember j
  else true

/-- A serialized object whose present members have the types `ApplicationSpec` declares. -/
def ApplicationSpec.fits : JSON → Bool
  | .obj ms => ms.all fun kv => ApplicationSpec.fitsMember kv.1 kv.2
  | _ => false

/-- Declared types of the members of `EnvVarPair`. -/
def EnvVarPair.fitsMember (k : String) (j : JSON) : Bool :=
  if k = "name" ∨ k = "value" then j.fitsString else true

/-- Declared types of the members of `BindingComponentConfiguration`; `resFits` says
which documents the imported resources type accepts. -/
def BindingComponentConfiguration.fitsMember (resFits : JSON → Bool) (k : String) (j : JSON) :
    Bool :=
  if k = "replicas" then j.fitsInt
  else if k = "resources" then j.isNull || resFits j
  else if k = "env" then fitsSlice (fitsStruct EnvVarPair.fitsMember) j
  else true

/-- Declared types of the members of `BindingComponent`. -/
def BindingComponent.fitsMember (resFits : JSON → Bool) (k : String) (j : JSON) : Bool :=
  if k = "name" then j.fitsString
  else if k = "configuration" then fitsStruct (BindingComponentConfiguration.fitsMember resFits) j
  else true

/-- Declared types of the members of `SnapshotEnvironmentBindingSpec`. -/
def SnapshotEnvironmentBindingSpec.fitsMember (resFits : JSON → Bool) (k : String) (j : JSON) :
    Bool :=
  if k = "application" ∨ k = "environment" ∨ k = "snapshot" then j.fitsString
  else if k = "components" then fitsSlice (fitsStruct (BindingComponent.fitsMember resFits)) j
  else true

/-- A serialized object whose present members have the types
`SnapshotEnvironmentBindingSpec` declares. -/
def SnapshotEnvironmentBindingSpec.fits (resFits : JSON → Bool) : JSON → Bool
  | .obj ms => ms.all fun kv => SnapshotEnvironmentBindingSpec.fitsMember resFits kv.1 kv.2
  | _ => false

/-- The imported unmarshaller accepts every document of the shape `resFits`,
whatever the value it writes into. -/
def Ext.Accepts {α : Type} (c : Ext α) (fits : JSON → Bool) : Prop :=
  ∀ cur j, fits j = true → (c.dec cur j).isSome = true

/-- Declared types of the members of the `ResourceList` stand-in. -/
def ResourceList.fitsMember (k : String) (j : JSON) : Bool :=
  if k = "cpu" ∨ k = "memory" then j.fitsString else true

/-- Declared types of the members of the `ResourceRequirements` stand-in. -/
def ResourceRequirements.fitsMember (k : String) (j : JSON) : Bool :=
  if k = "limits" ∨ k = "requests" then fitsStruct ResourceList.fitsMember j else true

/-! ## Example values -/

/-- The Go string made of the UTF-8 encoding of a text followed by the one byte `b`
read as a stray byte (for instance `0xFF`, a byte no UTF-8 encoding holds). -/
def GoString.withStray (s : String) (b : Fin 256) : GoString :=
  ⟨(GoString.ofText s).items ++ [StringItem.stray b]⟩

/-- The example of the spec: display name and description set, no repositories,
nothing else. -/
def petClinic : Application ObjectMeta Condition :=
  { TypeMeta := TypeMeta.zero
    ObjectMeta := objectMetaExt.zero
    Spec :=
      { DisplayName := "pet-clinic"
        AppModelRepository := ApplicationGitRepository.zero
        GitOpsRepository := ApplicationGitRepository.zero
        Description := "demo app" }
    Status := ApplicationStatus.zero }

/-- A condition of type `Created`, stamped at a whole second. -/
def createdCondition : Condition :=
  ⟨"Created", "True", ⟨"2022-05-01T10:00:00Z", 0⟩, "OK", "application created"⟩

/-- A second condition of the same type `Created`, stamped at a whole second. -/
def createdAgainCondition : Condition :=
  ⟨"Created", "False", ⟨"2022-05-01T10:05:00Z", 0⟩, "Error", "repository not reachable"⟩

/-- The condition `createdCondition` stamped half a second later. -/
def subSecondCondition : Condition :=
  ⟨"Created", "True", ⟨"2022-05-01T10:00:00Z", 500000000⟩, "OK", "application created"⟩

/-- An application with every optional field populated. -/
def fullApplication : Application ObjectMeta Condition :=
  { TypeMeta := ⟨"Application", "appstudio.redhat.com/v1alpha1"⟩
    ObjectMeta := ⟨"pet-clinic", "team-a"⟩
    Spec :=
      { DisplayName := "pet-clinic"
        AppModelRepository := ⟨"https://github.com/devfile-test/myrepo", "devel", "folderA"⟩
        GitOpsRepository := ⟨"https://github.com/devfile-test/gitops", "main", "folderA/folderB/gitops"⟩
        Description := "demo app" }
    Status := ⟨some [createdCondition], "schemaVersion: 2.2.0"⟩ }

/-- The application `fullApplication` with the byte `0xFF` at the end of its
description. -/
def strayApplication : Application ObjectMeta Condition :=
  { fullApplication with
    Spec := { fullApplication.Spec with Description := GoString.withStray "demo app" 0xFF } }

/-- The application `fullApplication` with its condition stamped within a second. -/
def subSecondApplication : Application ObjectMeta Condition :=
  { fullApplication with
    Status := { fullApplication.Status with Conditions := some [subSecondCondition] } }

/-- Compute resources with a limit and a request. -/
def smallResources : ResourceRequirements := ⟨⟨"1", "512Mi"⟩, ⟨"500m", GoString.empty⟩⟩

/-- A binding with every optional field populated. -/
def fullBinding : SnapshotEnvironmentBinding ObjectMeta ResourceRequirements Condition :=
  { TypeMeta := ⟨"SnapshotEnvironmentBinding", "appstudio.redhat.com/v1alpha1"⟩
    ObjectMeta := ⟨"pet-clinic-staging", "team-a"⟩
    Spec :=
      { Application := "pet-clinic"
        Environment := "staging"
        Snapshot := "snapshot-1"
        Components := some
          [ ⟨"backend", ⟨⟨3, by decide⟩, some smallResources, some [⟨"DB", "postgres"⟩, ⟨"MODE", "prod"⟩]⟩⟩,
            ⟨"frontend", ⟨⟨0, by decide⟩, some smallResources, some [⟨"API", "backend"⟩]⟩⟩ ] }
    Status :=
      { GitOpsDeployments := some [⟨"backend", "backend-deployment"⟩, ⟨"frontend", GoString.empty⟩]
        Components := some
          [ ⟨"backend", ⟨"https://github.com/devfile-test/gitops", "main", "components/backend/overlays/staging",
              some ["deployment-patch.yaml", "kustomization.yaml"], "abc123"⟩⟩ ]
        GitOpsRepoConditions := some [createdCondition]
        BindingConditions := some [createdAgainCondition]
        ComponentDeploymentConditions := some [createdCondition, createdAgainCondition] } }

/-- The binding `fullBinding` with the byte `0xFF` at the end of its snapshot name. -/
def strayBinding : SnapshotEnvironmentBinding ObjectMeta ResourceRequirements Condition :=
  { fullBinding with
    Spec := { fullBinding.Spec with Snapshot := GoString.withStray "snapshot-1" 0xFF } }

/-- The binding `fullBinding` with its binding condition stamped within a second. -/
def subSecondBinding : SnapshotEnvironmentBinding ObjectMeta ResourceRequirements Condition :=
  { fullBinding with
    Status := { fullBinding.Status with BindingConditions := some [subSecondCondition] } }

/-- A binding with every optional field absent: one component that has only a name,
and an empty status. -/
def bareBinding : SnapshotEnvironmentBinding ObjectMeta ResourceRequirements Condition :=
  { TypeMeta := TypeMeta.zero
    ObjectMeta := objectMetaExt.zero
    Spec :=
      { Application := "pet-clinic"
        Environment := "staging"
        Snapshot := "snapshot-1"
        Components := some [⟨"web", BindingComponentConfiguration.zero⟩] }
    Status := SnapshotEnvironmentBindingStatus.zero }

/-- An application status with two conditions of one type. -/
def repeatedStatus : ApplicationStatus Condition :=
  ⟨some [createdCondition, createdAgainCondition], GoString.empty⟩

/-- A binding status with two conditions of one type in each of its three lists. -/
def repeatedBindingStatus : SnapshotEnvironmentBindingStatus Condition :=
  { GitOpsDeployments := none
    Components := none
    GitOpsRepoConditions := some [createdCondition, createdAgainCondition]
    BindingConditions := some [createdCondition, createdAgainCondition]
    ComponentDeploymentConditions := some [createdCondition, createdAgainCondition] }

/-- A binding spec that names the component `web` twice, the first of them with the
variable `PORT` twice. -/
def repeatedSpec : SnapshotEnvironmentBindingSpec ResourceRequirements :=
  { Application := "pet-clinic"
    Environment := "staging"
    Snapshot := "snapshot-1"
    Components := some
      [ ⟨"web", ⟨⟨1, by decide⟩, none, some [⟨"PORT", "8080"⟩, ⟨"PORT", "9090"⟩]⟩⟩,
        ⟨"web", ⟨⟨2, by decide⟩, none, none⟩⟩ ] }

/-- A binding spec whose only component has an empty env slice that is not nil. -/
def emptyEnvSpec : SnapshotEnvironmentBindingSpec ResourceRequirements :=
  { Application := "pet-clinic"
    Environment := "staging"
    Snapshot := "snapshot-1"
    Components := some [⟨"web", ⟨⟨2, by decide⟩, some smallResources, some []⟩⟩] }

/-- The binding spec `emptyEnvSpec` with a nil env slice in place of the empty one. -/
def nilEnvSpec : SnapshotEnvironmentBindingSpec ResourceRequirements :=
  { Application := "pet-clinic"
    Environment := "staging"
    Snapshot := "snapshot-1"
    Components := some [⟨"web", ⟨⟨2, by decide⟩, some smallResources, none⟩⟩] }

/-- An application spec whose display name ends in the byte `0xFF`. -/
def straySpec : ApplicationSpec :=
  { DisplayName := GoString.withStray "pet-clinic" 0xFF
    AppModelRepository := ApplicationGitRepository.zero
    GitOpsRepository := ApplicationGitRepository.zero
    Description := "demo app" }

/-- The application spec `straySpec` with the code point U+FFFD in place of the byte. -/
def replacedSpec : ApplicationSpec :=
  { DisplayName := ⟨(GoString.ofText "pet-clinic").items ++ [StringItem.rune (Char.ofNat 0xFFFD)]⟩
    AppModelRepository := ApplicationGitRepository.zero
    GitOpsRepository := ApplicationGitRepository.zero
    Description := "demo app" }

/-- A binding spec whose application reference ends in the byte `0xFF`. -/
def strayBindingSpec : SnapshotEnvironmentBindingSpec ResourceRequirements :=
  { nilEnvSpec with Application := GoString.withStray "pet-clinic" 0xFF }

/-- The binding spec `strayBindingSpec` with the code point U+FFFD in place of the
byte. -/
def replacedBindingSpec : SnapshotEnvironmentBindingSpec ResourceRequirements :=
  { nilEnvSpec with
    Application := ⟨(GoString.ofText "pet-clinic").items ++ [StringItem.rune (Char.ofNat 0xFFFD)]⟩ }

/-- A serialized object with no required member at all, only a description and a key
that names no field. -/
def noRequiredMembers : JSON :=
  .obj [("description", .str "demo app"), ("owner", .num 7)]

/-- A serialized object with none of the members `application`, `environment`,
`snapshot`: a component list and a key that names no field. -/
def noReferences : JSON :=
  .obj [("components", .arr
      [.obj [("name", .str "web"),
        ("configuration", .obj
          [("replicas", .num 2), ("resources", .obj [("limits", .obj [("cpu", .str "1")])])])]]),
    ("labels", .arr [.str "a"])]

/-! # Theorems -/

/-! ## Strings -/

theorem decString_encString (cur g : GoString) : decString cur (encString g) = some g.readBack :=
  rfl

theorem readBack_empty : GoString.empty.readBack = GoString.empty := rfl

theorem readBack_of_valid (g : GoString) (h : g.Valid) : g.readBack = g := by
  obtain ⟨items⟩ := g
  simp only [GoString.readBack, GoString.ofText, GoString.toText, GoString.mk.injEq, List.map_map]
  conv_rhs => rw [← List.map_id items]
  apply List.map_congr_left
  intro u hu
  have := h u hu
  cases u with
  | rune c => rfl
  | stray b => simp [StringItem.isRune] at this

theorem map_readBack_of_valid (gs : List GoString) (h : ∀ g ∈ gs, g.Valid) :
    gs.map GoString.readBack = gs := by
  conv_rhs => rw [← List.map_id gs]
  exact List.map_congr_left fun g hg => readBack_of_valid g (h g hg)

/-! ## Marshalling then unmarshalling: shared lemmas -/

theorem decElems_enc {α : Type} (zero : α) (dec : α → JSON → Option α) (enc : α → JSON)
    (f : α → α) (xs : List α) (h : ∀ x ∈ xs, dec zero (enc x) = some (f x)) :
    decElems zero dec [] (xs.map enc) = some (xs.map f) := by
  induction xs with
  | nil => rfl
  | cons x xs ih =>
    have hx := h x (List.mem_cons_self x xs)
    have ht := ih fun y hy => h y (List.mem_cons_of_mem x hy)
    simp only [List.map_cons, decElems, List.headD_nil, List.tail_nil, hx, ht, Option.map_some']

theorem decSlice_encSlice_map {α : Type} (zero : α) (dec : α → JSON → Option α) (enc : α → JSON)
    (f : α → α) (s : Slice α) (h : ∀ x ∈ s.toList, dec zero (enc x) = some (f x)) :
    decSlice zero dec none (encSlice enc s) = some (s.mapElems f) := by
  cases s with
  | none => rfl
  | some xs =>
    have hm := decElems_enc zero dec enc f xs h
    simp only [decSlice, encSlice, Slice.toList, hm]; rfl

theorem decSlice_encSlice {α : Type} (zero : α) (dec : α → JSON → Option α) (enc : α → JSON)
    (s : Slice α) (h : ∀ x ∈ s.toList, dec zero (enc x) = some x) :
    decSlice zero dec none (encSlice enc s) = some s := by
  have := decSlice_encSlice_map zero dec enc id s (by simpa using h)
  cases s <;> simpa [Slice.mapElems] using this

theorem canon_of_empty {α : Type} (s : Slice α) (h : s.toList = []) : s.canon = none := by
  cases s with
  | none => rfl
  | some xs => cases xs with
    | nil => rfl
    | cons x xs => simp [Slice.toList] at h

theorem canon_of_nonempty {α : Type} (s : Slice α) (h : ¬ s.toList = []) : s.canon = s := by
  cases s with
  | none => rfl
  | some xs => cases xs with
    | nil => simp [Slice.toList] at h
    | cons x xs => rfl

theorem canon_toList {α : Type} (s : Slice α) : s.canon.toList = s.toList := by
  cases s with
  | none => rfl
  | some xs => cases xs <;> rfl

theorem toList_mapElems {α : Type} (f : α → α) (s : Slice α) :
    (s.mapElems f).toList = s.toList.map f := by
  cases s <;> rfl

theorem mapElems_of_empty {α : Type} (f : α → α) (s : Slice α) (h : s.toList = []) :
    (s.mapElems f).canon = none := by
  apply canon_of_empty; rw [toList_mapElems, h]; rfl

theorem mapElems_of_nonempty {α : Type} (f : α → α) (s : Slice α) (h : ¬ s.toList = []) :
    (s.mapElems f).canon = s.mapElems f := by
  apply canon_of_nonempty; rw [toList_mapElems]; simpa using h

theorem mapElems_id_of {α : Type} (f : α → α) (s : Slice α) (h : ∀ x ∈ s.toList, f x = x) :
    s.mapElems f = s := by
  cases s with
  | none => rfl
  | some xs =>
    have : xs.map f = xs := by
      conv_rhs => rw [← List.map_id xs]
      exact List.map_congr_left h
    simp [Slice.mapElems, this]

theorem gitRepository_decode_encode (r : ApplicationGitRepository) :
    ApplicationGitRepository.decode ApplicationGitRepository.zero r.toJSON = some r.readBack := by
  obtain ⟨u, b, c⟩ := r
  by_cases hb : b = GoString.empty <;> by_cases hc : c = GoString.empty <;>
    simp [ApplicationGitRepository.decode, ApplicationGitRepository.toJSON,
      ApplicationGitRepository.fields, ApplicationGitRepository.zero,
      ApplicationGitRepository.readBack, decStruct, always, omitempty,
      isEmptyString, hb, hc, List.foldlM, ApplicationGitRepository.set, decString_encString,
      readBack_empty]

theorem applicationSpec_decode_encode (a : ApplicationSpec) :
    ApplicationSpec.decode ApplicationSpec.zero a.toJSON = some a.readBack := by
  obtain ⟨n, r1, r2, d⟩ := a
  by_cases hd : d = GoString.empty <;>
    simp [ApplicationSpec.decode, ApplicationSpec.toJSON, ApplicationSpec.fields,
      ApplicationSpec.zero, ApplicationSpec.readBack, decStruct, always, omitempty, isEmptyString,
      isEmptyStruct, hd, List.foldlM, ApplicationSpec.set, decString_encString, readBack_empty,
      gitRepository_decode_encode]

theorem applicationStatus_decode_encode {Cond : Type} (condC : Ext Cond)
    (s : ApplicationStatus Cond) (h : ∀ c ∈ s.Conditions.toList, condC.Faithful c) :
    ApplicationStatus.decode condC ApplicationStatus.zero (s.toJSON condC) = some s.readBack := by
  obtain ⟨cs, d⟩ := s
  have hs := decSlice_encSlice condC.zero condC.dec condC.enc cs fun c hc => (h c hc).2
  by_cases hd : d = GoString.empty <;>
    simp [ApplicationStatus.decode, ApplicationStatus.toJSON, ApplicationStatus.fields,
      ApplicationStatus.zero, ApplicationStatus.readBack, decStruct, always, omitempty,
      isEmptyString, hd, List.foldlM, ApplicationStatus.set, decString_encString, readBack_empty,
      hs]

theorem application_decode_encode {Meta Cond : Type} (metaC : Ext Meta) (condC : Ext Cond)
    (a : Application Meta Cond) (h : a.ExtFaithful metaC condC) :
    Application.unmarshal metaC condC (a.toJSON metaC condC) = some a.readBack := by
  obtain ⟨⟨k, v⟩, m, sp, st⟩ := a
  obtain ⟨⟨_, hm⟩, hc⟩ := h
  have h1 := applicationSpec_decode_encode sp
  have h2 := applicationStatus_decode_encode condC st hc
  simp only at hm
  by_cases hk : k = GoString.empty <;> by_cases hv : v = GoString.empty <;>
    simp [Application.unmarshal, Application.decode, Application.toJSON, Application.fields,
      TypeMeta.fields, TypeMeta.zero, TypeMeta.readBack, Application.readBack,
      Application.zero, decStruct, always, omitempty, isEmptyString, isEmptyStruct, hk, hv,
      List.foldlM, Application.set, decString_encString, readBack_empty, h1, h2, hm]

theorem envVarPair_decode_encode (e : EnvVarPair) :
    EnvVarPair.decode EnvVarPair.zero e.toJSON = some e.readBack := by
  obtain ⟨n, v⟩ := e
  simp [EnvVarPair.decode, EnvVarPair.toJSON, EnvVarPair.fields, EnvVarPair.zero,
    EnvVarPair.readBack, decStruct, always, List.foldlM, EnvVarPair.set, decString_encString]

theorem configuration_decode_encode {Res : Type} (resC : Ext Res)
    (c : BindingComponentConfiguration Res) (h : ∀ r ∈ c.Resources, resC.Faithful r) :
    BindingComponentConfiguration.decode resC BindingComponentConfiguration.zero (c.toJSON resC)
      = some c.readBack := by
  obtain ⟨n, r, e⟩ := c
  have he := decSlice_encSlice_map EnvVarPair.zero EnvVarPair.decode EnvVarPair.toJSON
    EnvVarPair.readBack e fun x _ => envVarPair_decode_encode x
  by_cases hE : e.toList = []
  · have hc := mapElems_of_empty EnvVarPair.readBack e hE
    cases r with
    | none =>
      simp [BindingComponentConfiguration.decode, BindingComponentConfiguration.toJSON,
        BindingComponentConfiguration.fields, BindingComponentConfiguration.zero,
        BindingComponentConfiguration.readBack, decStruct, always, omitempty, isEmptyPtr,
        isEmptySlice, List.foldlM, BindingComponentConfiguration.set, decInt, n.property, hE, hc]
    | some x =>
      obtain ⟨hx1, hx2⟩ := h x rfl
      simp [BindingComponentConfiguration.decode, BindingComponentConfiguration.toJSON,
        BindingComponentConfiguration.fields, BindingComponentConfiguration.zero,
        BindingComponentConfiguration.readBack, decStruct, always, omitempty, isEmptyPtr,
        isEmptySlice, List.foldlM, BindingComponentConfiguration.set, decInt, n.property, hE, hc,
        decPtr, encPtr, hx1, hx2]
  · have hc := mapElems_of_nonempty EnvVarPair.readBack e hE
    cases r with
    | none =>
      simp [BindingComponentConfiguration.decode, BindingComponentConfiguration.toJSON,
        BindingComponentConfiguration.fields, BindingComponentConfiguration.zero,
        BindingComponentConfiguration.readBack, decStruct, always, omitempty, isEmptyPtr,
        isEmptySlice, List.foldlM, BindingComponentConfiguration.set, decInt, n.property, hE, hc,
        he]
    | some x =>
      obtain ⟨hx1, hx2⟩ := h x rfl
      simp [BindingComponentConfiguration.decode, BindingComponentConfiguration.toJSON,
        BindingComponentConfiguration.fields, BindingComponentConfiguration.zero,
        BindingComponentConfiguration.readBack, decStruct, always, omitempty, isEmptyPtr,
        isEmptySlice, List.foldlM, BindingComponentConfiguration.set, decInt, n.property, hE, hc,
        he, decPtr, encPtr, hx1, hx2]

theorem component_decode_encode {Res : Type} (resC : Ext Res) (c : BindingComponent Res)
    (h : ∀ r ∈ c.Configuration.Resources, resC.Faithful r) :
    BindingComponent.decode resC BindingComponent.zero (c.toJSON resC) = some c.readBack := by
  obtain ⟨n, cfg⟩ := c
  have hc := configuration_decode_encode resC cfg h
  simp [BindingComponent.decode, BindingComponent.toJSON, BindingComponent.fields,
    BindingComponent.zero, BindingComponent.readBack, decStruct, always, omitempty, isEmptyStruct,
    List.foldlM, BindingComponent.set, decString_encString, hc]

theorem bindingSpec_decode_encode {Res : Type} (resC : Ext Res)
    (s : SnapshotEnvironmentBindingSpec Res) (h : s.ExtFaithful resC) :
    SnapshotEnvironmentBindingSpec.decode resC SnapshotEnvironmentBindingSpec.zero (s.toJSON resC)
      = some s.readBack := by
  obtain ⟨a, e, sn, cs⟩ := s
  have hc := decSlice_encSlice_map BindingComponent.zero (BindingComponent.decode resC)
    (BindingComponent.toJSON resC) BindingComponent.readBack cs
    fun c hc => component_decode_encode resC c (h c hc)
  simp [SnapshotEnvironmentBindingSpec.decode,
    SnapshotEnvironmentBindingSpec.toJSON, SnapshotEnvironmentBindingSpec.fields,
    SnapshotEnvironmentBindingSpec.zero, SnapshotEnvironmentBindingSpec.readBack, decStruct,
    always, List.foldlM, SnapshotEnvironmentBindingSpec.set, decString_encString, hc]

theorem gitOpsRepository_decode_encode (r : BindingComponentGitOpsRepository) :
    BindingComponentGitOpsRepository.decode BindingComponentGitOpsRepository.zero r.toJSON
      = some r.readBack := by
  obtain ⟨u, b, p, g, c⟩ := r
  have hg := decSlice_encSlice_map GoString.empty decString encString GoString.readBack g
    fun _ _ => rfl
  simp [BindingComponentGitOpsRepository.decode, BindingComponentGitOpsRepository.toJSON,
    BindingComponentGitOpsRepository.fields, BindingComponentGitOpsRepository.zero,
    BindingComponentGitOpsRepository.readBack, decStruct,
    always, List.foldlM, BindingComponentGitOpsRepository.set, decString_encString, hg]

theorem componentStatus_decode_encode (c : BindingComponentStatus) :
    BindingComponentStatus.decode BindingComponentStatus.zero c.toJSON = some c.readBack := by
  obtain ⟨n, r⟩ := c
  have hr := gitOpsRepository_decode_encode r
  simp [BindingComponentStatus.decode, BindingComponentStatus.toJSON, BindingComponentStatus.fields,
    BindingComponentStatus.zero, BindingComponentStatus.readBack, decStruct, always, List.foldlM,
    BindingComponentStatus.set, decString_encString, hr]

theorem gitOpsDeployment_decode_encode (d : BindingStatusGitOpsDeployment) :
    BindingStatusGitOpsDeployment.decode BindingStatusGitOpsDeployment.zero d.toJSON
      = some d.readBack := by
  obtain ⟨n, g⟩ := d
  by_cases hg : g = GoString.empty <;>
    simp [BindingStatusGitOpsDeployment.decode, BindingStatusGitOpsDeployment.toJSON,
      BindingStatusGitOpsDeployment.fields, BindingStatusGitOpsDeployment.zero,
      BindingStatusGitOpsDeployment.readBack, decStruct, always,
      omitempty, isEmptyString, hg, List.foldlM, BindingStatusGitOpsDeployment.set,
      decString_encString, readBack_empty]

theorem bindingStatus_decode_encode {Cond : Type} (condC : Ext Cond)
    (s : SnapshotEnvironmentBindingStatus Cond) (h : s.ExtFaithful condC) :
    SnapshotEnvironmentBindingStatus.decode condC SnapshotEnvironmentBindingStatus.zero
      (s.toJSON condC) = some s.readBack := by
  obtain ⟨a, b, c, d, e⟩ := s
  obtain ⟨h1, h2, h3⟩ := h
  have ha := decSlice_encSlice_map BindingStatusGitOpsDeployment.zero
    BindingStatusGitOpsDeployment.decode BindingStatusGitOpsDeployment.toJSON
    BindingStatusGitOpsDeployment.readBack a fun x _ => gitOpsDeployment_decode_encode x
  have hb := decSlice_encSlice_map BindingComponentStatus.zero BindingComponentStatus.decode
    BindingComponentStatus.toJSON BindingComponentStatus.readBack b
    fun x _ => componentStatus_decode_encode x
  have hc := decSlice_encSlice condC.zero condC.dec condC.enc c fun x hx => (h1 x hx).2
  have hd := decSlice_encSlice condC.zero condC.dec condC.enc d fun x hx => (h2 x hx).2
  have he := decSlice_encSlice condC.zero condC.dec condC.enc e fun x hx => (h3 x hx).2
  by_cases ea : a.toList = [] <;> by_cases eb : b.toList = [] <;> by_cases ec : c.toList = [] <;>
    by_cases ed : d.toList = [] <;> by_cases ee : e.toList = [] <;>
    simp [SnapshotEnvironmentBindingStatus.decode, SnapshotEnvironmentBindingStatus.toJSON,
      SnapshotEnvironmentBindingStatus.fields, SnapshotEnvironmentBindingStatus.zero,
      SnapshotEnvironmentBindingStatus.readBack, decStruct, omitempty, isEmptySlice, List.foldlM,
      SnapshotEnvironmentBindingStatus.set, ha, hb, hc, hd, he, ea, eb, ec, ed, ee,
      canon_of_empty, canon_of_nonempty, mapElems_of_empty, mapElems_of_nonempty]

theorem binding_decode_encode {Meta Res Cond : Type} (metaC : Ext Meta) (resC : Ext Res)
    (condC : Ext Cond) (b : SnapshotEnvironmentBinding Meta Res Cond)
    (h : b.ExtFaithful metaC resC condC) :
    SnapshotEnvironmentBinding.unmarshal metaC resC condC (b.toJSON metaC resC condC)
      = some b.readBack := by
  obtain ⟨⟨k, v⟩, m, sp, st⟩ := b
  obtain ⟨⟨_, hm⟩, hr, hc⟩ := h
  have hsp := bindingSpec_decode_encode resC sp hr
  have hst := bindingStatus_decode_encode condC st hc
  simp only at hm
  by_cases hk : k = GoString.empty <;> by_cases hv : v = GoString.empty <;>
    simp [SnapshotEnvironmentBinding.unmarshal, SnapshotEnvironmentBinding.decode,
      SnapshotEnvironmentBinding.toJSON, SnapshotEnvironmentBinding.fields, TypeMeta.fields,
      TypeMeta.zero, TypeMeta.readBack, SnapshotEnvironmentBinding.zero,
      SnapshotEnvironmentBinding.readBack, decStruct,
      always, omitempty, isEmptyString, isEmptyStruct, hk, hv, List.foldlM,
      SnapshotEnvironmentBinding.set, decString_encString, readBack_empty, hsp, hst, hm]

/-! ## Unmarshalling succeeds on well-typed documents: shared lemmas -/

theorem foldlM_isSome {α : Type} (set : α → String → JSON → Option α)
    (member : String → JSON → Bool)
    (h : ∀ acc k j, member k j = true → (set acc k j).isSome = true) :
    ∀ (ms : Members) (cur : α), (ms.all fun kv => member kv.1 kv.2) = true →
      (ms.foldlM (fun acc kv => set acc kv.1 kv.2) cur).isSome = true
  | [], _, _ => rfl
  | kv :: ms, cur, hms => by
    simp only [List.all_cons, Bool.and_eq_true] at hms
    obtain ⟨acc, hacc⟩ := Option.isSome_iff_exists.mp (h cur kv.1 kv.2 hms.1)
    rw [List.foldlM_cons, hacc]
    exact foldlM_isSome set member h ms acc hms.2

theorem decStruct_isSome {α : Type} (set : α → String → JSON → Option α)
    (member : String → JSON → Bool)
    (h : ∀ acc k j, member k j = true → (set acc k j).isSome = true) (cur : α) (j : JSON)
    (hj : fitsStruct member j = true) : (decStruct set cur j).isSome = true := by
  cases j with
  | obj ms => exact foldlM_isSome set member h ms cur hj
  | null => rfl
  | _ => simp [fitsStruct] at hj

theorem decElems_isSome {α : Type} (zero : α) (dec : α → JSON → Option α) (elem : JSON → Bool)
    (h : ∀ cur j, elem j = true → (dec cur j).isSome = true) :
    ∀ (js : List JSON) (cur : List α), js.all elem = true →
      (decElems zero dec cur js).isSome = true
  | [], _, _ => rfl
  | j :: js, cur, hjs => by
    simp only [List.all_cons, Bool.and_eq_true] at hjs
    obtain ⟨x, hx⟩ := Option.isSome_iff_exists.mp (h (cur.headD zero) j hjs.1)
    obtain ⟨xs, hxs⟩ := Option.isSome_iff_exists.mp
      (decElems_isSome zero dec elem h js cur.tail hjs.2)
    simp only [decElems, hx, hxs]; rfl

theorem decSlice_isSome {α : Type} (zero : α) (dec : α → JSON → Option α) (elem : JSON → Bool)
    (h : ∀ cur j, elem j = true → (dec cur j).isSome = true) (cur : Slice α) (j : JSON)
    (hj : fitsSlice elem j = true) : (decSlice zero dec cur j).isSome = true := by
  cases j with
  | arr js =>
    obtain ⟨xs, hxs⟩ := Option.isSome_iff_exists.mp
      (decElems_isSome zero dec elem h js cur.toList hj)
    simp only [decSlice, hxs]; rfl
  | null => rfl
  | _ => simp [fitsSlice] at hj

theorem decString_isSome (cur : GoString) (j : JSON) (hj : j.fitsString = true) :
    (decString cur j).isSome = true := by
  cases j <;> simp_all [decString, JSON.fitsString]

theorem decInt_isSome (cur : GoInt) (j : JSON) (hj : j.fitsInt = true) :
    (decInt cur j).isSome = true := by
  cases j <;> simp_all [decInt, JSON.fitsInt]

theorem gitRepository_set_isSome (acc : ApplicationGitRepository) (k : String) (j : JSON)
    (h : ApplicationGitRepository.fitsMember k j = true) :
    (ApplicationGitRepository.set acc k j).isSome = true := by
  unfold ApplicationGitRepository.fitsMember at h
  unfold ApplicationGitRepository.set
  split_ifs <;> simp_all [decString_isSome]

theorem applicationSpec_set_isSome (acc : ApplicationSpec) (k : String) (j : JSON)
    (h : ApplicationSpec.fitsMember k j = true) : (ApplicationSpec.set acc k j).isSome = true := by
  unfold ApplicationSpec.fitsMember at h
  unfold ApplicationSpec.set
  have hr := fun cur => decStruct_isSome ApplicationGitRepository.set
    ApplicationGitRepository.fitsMember gitRepository_set_isSome cur j
  split_ifs <;> simp_all [decString_isSome, ApplicationGitRepository.decode]

theorem envVarPair_set_isSome (acc : EnvVarPair) (k : String) (j : JSON)
    (h : EnvVarPair.fitsMember k j = true) : (EnvVarPair.set acc k j).isSome = true := by
  unfold EnvVarPair.fitsMember at h
  unfold EnvVarPair.set
  split_ifs <;> simp_all [decString_isSome]

theorem configuration_set_isSome {Res : Type} (resC : Ext Res) (resFits : JSON → Bool)
    (hres : resC.Accepts resFits) (acc : BindingComponentConfiguration Res) (k : String)
    (j : JSON) (h : BindingComponentConfiguration.fitsMember resFits k j = true) :
    (BindingComponentConfiguration.set resC acc k j).isSome = true := by
  unfold BindingComponentConfiguration.fitsMember at h
  unfold BindingComponentConfiguration.set
  have he := decSlice_isSome EnvVarPair.zero EnvVarPair.decode (fitsStruct EnvVarPair.fitsMember)
    (fun cur j hj =>
      decStruct_isSome EnvVarPair.set EnvVarPair.fitsMember envVarPair_set_isSome cur j hj)
    acc.Env j
  split_ifs with h1 h2 h3
  · simp_all [decInt_isSome]
  · subst h2
    simp only [if_true, Bool.or_eq_true, String.reduceEq, if_false] at h
    simp only [Option.isSome_map', decPtr]
    by_cases hn : j.isNull = true
    · simp [hn]
    · simp only [hn, if_false, Bool.false_eq_true, Option.isSome_map']
      exact hres _ j (h.resolve_left hn)
  · simp_all
  · rfl

theorem component_set_isSome {Res : Type} (resC : Ext Res) (resFits : JSON → Bool)
    (hres : resC.Accepts resFits) (acc : BindingComponent Res) (k : String) (j : JSON)
    (h : BindingComponent.fitsMember resFits k j = true) :
    (BindingComponent.set resC acc k j).isSome = true := by
  unfold BindingComponent.fitsMember at h
  unfold BindingComponent.set
  have hc := fun cur => decStruct_isSome (BindingComponentConfiguration.set resC)
    (BindingComponentConfiguration.fitsMember resFits)
    (configuration_set_isSome resC resFits hres) cur j
  split_ifs <;> simp_all [decString_isSome, BindingComponentConfiguration.decode]

theorem bindingSpec_set_isSome {Res : Type} (resC : Ext Res) (resFits : JSON → Bool)
    (hres : resC.Accepts resFits) (acc : SnapshotEnvironmentBindingSpec Res) (k : String)
    (j : JSON) (h : SnapshotEnvironmentBindingSpec.fitsMember resFits k j = true) :
    (SnapshotEnvironmentBindingSpec.set resC acc k j).isSome = true := by
  unfold SnapshotEnvironmentBindingSpec.fitsMember at h
  unfold SnapshotEnvironmentBindingSpec.set
  have hc := decSlice_isSome BindingComponent.zero (BindingComponent.decode resC)
    (fitsStruct (BindingComponent.fitsMember resFits))
    (fun cur j hj => decStruct_isSome (BindingComponent.set resC)
      (BindingComponent.fitsMember resFits) (component_set_isSome resC resFits hres) cur j hj)
    acc.Components j
  split_ifs <;> simp_all [decString_isSome]

theorem foldlM_keeps {α β : Type} (set : α → String → JSON → Option α) (proj : α → β)
    (key : String)
    (h : ∀ acc k j acc', k ≠ key → set acc k j = some acc' → proj acc' = proj acc) :
    ∀ (ms : Members) (cur res : α), (keys ms).contains key = false →
      ms.foldlM (fun acc kv => set acc kv.1 kv.2) cur = some res → proj res = proj cur
  | [], cur, res, _, hres => by
    simp only [List.foldlM_nil] at hres
    rw [← Option.some.inj hres]
  | kv :: ms, cur, res, hk, hres => by
    simp only [keys, List.map_cons, List.contains_cons, Bool.or_eq_false_iff, beq_eq_false_iff_ne,
      ne_eq] at hk
    rw [List.foldlM_cons] at hres
    cases hacc : set cur kv.1 kv.2 with
    | none => simp [hacc] at hres
    | some acc =>
      rw [hacc] at hres
      have h1 := foldlM_keeps set proj key h ms acc res hk.2 hres
      have h2 := h cur kv.1 kv.2 acc (fun e => hk.1 e.symm) hacc
      exact h1.trans h2
/-! ## Omission and presence of members -/

/-- C1, evaluated on the code: the Application of the example, display name `pet-clinic`,
description `demo app`, no repositories and nothing else set, is marshalled with a spec
object that does hold the members `appModelRepository` and `gitOpsRepository`, each as an
object with an empty `url`.  The two repository members are written for every
ApplicationSpec, whereas `description` and `devfile` are left out exactly when empty. -/
theorem petClinic_repositories_written :
    (petClinic.toJSON objectMetaExt conditionExt).get "spec" = some
        (.obj [("displayName", .str "pet-clinic"),
          ("appModelRepository", .obj [("url", .str "")]),
          ("gitOpsRepository", .obj [("url", .str "")]),
          ("description", .str "demo app")])
      ∧ (petClinic.toJSON objectMetaExt conditionExt).get "status" = some
        (.obj [("conditions", .null)])
      ∧ (∀ a : ApplicationSpec,
          a.toJSON.hasKey "appModelRepository" = true ∧ a.toJSON.hasKey "gitOpsRepository" = true
            ∧ (a.toJSON.hasKey "description" = false ↔ a.Description = GoString.empty))
      ∧ (∀ s : ApplicationStatus Condition,
          (s.toJSON conditionExt).hasKey "devfile" = false ↔ s.Devfile = GoString.empty) := by
  refine ⟨rfl, rfl, fun a => ?_, fun s => ?_⟩
  · by_cases hd : a.Description = GoString.empty <;>
      simp [ApplicationSpec.toJSON, ApplicationSpec.fields, JSON.hasKey, JSON.members, keys,
        always, omitempty, isEmptyStruct, isEmptyString, hd]
  · by_cases hd : s.Devfile = GoString.empty <;>
      simp [ApplicationStatus.toJSON, ApplicationStatus.fields, JSON.hasKey, JSON.members, keys,
        always, omitempty, isEmptyString, hd]

/-- C4, evaluated on the code: the binding whose only component has a name and no
configuration, and whose status is empty, is marshalled with a component object that
does hold the member `configuration` (an object with `replicas` 0), while the status
object is empty.  The member `configuration` is written for every component, whereas
each of the five status members is left out exactly when its sequence has no entry. -/
theorem bareBinding_configuration_written :
    (bareBinding.toJSON objectMetaExt resourceRequirementsExt conditionExt).get "spec" = some
        (.obj [("application", .str "pet-clinic"), ("environment", .str "staging"),
          ("snapshot", .str "snapshot-1"),
          ("components", .arr
            [.obj [("name", .str "web"), ("configuration", .obj [("replicas", .num 0)])]])])
      ∧ (bareBinding.toJSON objectMetaExt resourceRequirementsExt conditionExt).get "status"
          = some (.obj [])
      ∧ (∀ c : BindingComponent ResourceRequirements,
          (c.toJSON resourceRequirementsExt).hasKey "configuration" = true)
      ∧ (∀ s : SnapshotEnvironmentBindingStatus Condition,
          ((s.toJSON conditionExt).hasKey "gitopsDeployments" = false
              ↔ s.GitOpsDeployments.toList = [])
            ∧ ((s.toJSON conditionExt).hasKey "components" = false ↔ s.Components.toList = [])
            ∧ ((s.toJSON conditionExt).hasKey "gitopsRepoConditions" = false
              ↔ s.GitOpsRepoConditions.toList = [])
            ∧ ((s.toJSON conditionExt).hasKey "bindingConditions" = false
              ↔ s.BindingConditions.toList = [])
            ∧ ((s.toJSON conditionExt).hasKey "componentDeploymentConditions" = false
              ↔ s.ComponentDeploymentConditions.toList = [])) := by
  refine ⟨rfl, rfl, fun c => ?_, fun s => ?_⟩
  · simp [BindingComponent.toJSON, BindingComponent.fields, JSON.hasKey, JSON.members, keys,
      always, omitempty, isEmptyStruct]
  · obtain ⟨a, b, c, d, e⟩ := s
    by_cases ea : a.toList = [] <;> by_cases eb : b.toList = [] <;> by_cases ec : c.toList = [] <;>
      by_cases ed : d.toList = [] <;> by_cases ee : e.toList = [] <;>
      simp [SnapshotEnvironmentBindingStatus.toJSON, SnapshotEnvironmentBindingStatus.fields,
        JSON.hasKey, JSON.members, keys, omitempty, isEmptySlice, ea, eb, ec, ed, ee]

/-- C5: required members are always written.  The marshalled Application holds a `spec`
object with the member `displayName`, and the marshalled SnapshotEnvironmentBinding a
`spec` object with the members `application`, `environment`, `snapshot` and
`components`, whatever the values of these fields, the empty string and the nil or
empty sequence included. -/
theorem required_members_always_written {Meta Res Cond : Type} (metaC : Ext Meta)
    (resC : Ext Res) (condC : Ext Cond) :
    (∀ a : Application Meta Cond,
      (a.toJSON metaC condC).get "spec" = some a.Spec.toJSON
        ∧ a.Spec.toJSON.hasKey "displayName" = true)
    ∧ (∀ b : SnapshotEnvironmentBinding Meta Res Cond,
      (b.toJSON metaC resC condC).get "spec" = some (b.Spec.toJSON resC)
        ∧ (b.Spec.toJSON resC).hasKey "application" = true
        ∧ (b.Spec.toJSON resC).hasKey "environment" = true
        ∧ (b.Spec.toJSON resC).hasKey "snapshot" = true
        ∧ (b.Spec.toJSON resC).hasKey "components" = true) := by
  refine ⟨fun a => ⟨?_, ?_⟩, fun b => ⟨?_, ?_⟩⟩
  · simp [Application.toJSON, Application.fields, JSON.get, JSON.members, lookup, always,
      omitempty, isEmptyStruct, List.find?]
  · simp [ApplicationSpec.toJSON, ApplicationSpec.fields, JSON.hasKey, JSON.members, keys, always]
  · simp [SnapshotEnvironmentBinding.toJSON, SnapshotEnvironmentBinding.fields, JSON.get,
      JSON.members, lookup, always, omitempty, isEmptyStruct, List.find?]
  · simp [SnapshotEnvironmentBindingSpec.toJSON, SnapshotEnvironmentBindingSpec.fields,
      JSON.hasKey, JSON.members, keys, always]

/-- C10: a zero replica count is always written.  Every marshalled
BindingComponentConfiguration holds the member `replicas` with the value of `Replicas`,
0 included; `resources` is left out exactly when the pointer is nil and `env` exactly
when the slice has no element.  A component given no configuration is the same value
as a component configured with 0 replicas, no resources and no env, and both (and the
one with an empty env slice) are marshalled to the same document. -/
theorem zero_replicas_written {Res : Type} (resC : Ext Res) :
    (∀ c : BindingComponentConfiguration Res,
      (c.toJSON resC).hasKey "replicas" = true
        ∧ (c.toJSON resC).get "replicas" = some (.num c.Replicas.val)
        ∧ ((c.toJSON resC).hasKey "resources" = false ↔ c.Resources = none)
        ∧ ((c.toJSON resC).hasKey "env" = false ↔ c.Env.toList = []))
    ∧ (∀ n : GoString,
      (⟨n, BindingComponentConfiguration.zero⟩ : BindingComponent Res)
          = ⟨n, ⟨⟨0, by decide⟩, none, none⟩⟩
        ∧ BindingComponent.toJSON resC ⟨n, BindingComponentConfiguration.zero⟩
          = .obj [("name", encString n), ("configuration", .obj [("replicas", .num 0)])]
        ∧ BindingComponent.toJSON resC ⟨n, ⟨⟨0, by decide⟩, none, none⟩⟩
          = BindingComponent.toJSON resC ⟨n, BindingComponentConfiguration.zero⟩
        ∧ BindingComponent.toJSON resC ⟨n, ⟨⟨0, by decide⟩, none, some []⟩⟩
          = BindingComponent.toJSON resC ⟨n, BindingComponentConfiguration.zero⟩) := by
  refine ⟨fun c => ?_, fun n => ⟨rfl, rfl, rfl, rfl⟩⟩
  obtain ⟨n, r, e⟩ := c
  by_cases he : e.toList = [] <;> cases r <;>
    simp [BindingComponentConfiguration.toJSON, BindingComponentConfiguration.fields, JSON.hasKey,
      JSON.get, lookup, JSON.members, keys, always, omitempty, isEmptyPtr, isEmptySlice, he,
      List.find?]

/-- C7: uniqueness of names is not enforced.  The binding spec `repeatedSpec` names the
component `web` twice and gives its first component the variable `PORT` twice;
marshalling then unmarshalling it succeeds and returns it unchanged, so both repeated
entries are kept, in their order. -/
theorem repeated_names_accepted :
    repeatedSpec.Components.toList.map BindingComponent.Name = ["web", "web"]
      ∧ (repeatedSpec.Components.toList.map fun c =>
          c.Configuration.Env.toList.map EnvVarPair.Name)
          = [[GoString.ofText "PORT", GoString.ofText "PORT"], []]
      ∧ ¬ (repeatedSpec.Components.toList.map BindingComponent.Name).Nodup
      ∧ SnapshotEnvironmentBindingSpec.unmarshal resourceRequirementsExt
          (repeatedSpec.toJSON resourceRequirementsExt) = some repeatedSpec :=
  ⟨rfl, rfl, by decide, rfl⟩

/-! ## Values that are read back as themselves -/

theorem gitRepository_readBack (r : ApplicationGitRepository) (h : r.ValidText) :
    r.readBack = r := by
  obtain ⟨u, b, c⟩ := r
  obtain ⟨h1, h2, h3⟩ := h
  simp [ApplicationGitRepository.readBack, readBack_of_valid _ h1, readBack_of_valid _ h2,
    readBack_of_valid _ h3]

theorem applicationSpec_readBack (a : ApplicationSpec) (h : a.ValidText) : a.readBack = a := by
  obtain ⟨n, r1, r2, d⟩ := a
  obtain ⟨h1, h2, h3, h4⟩ := h
  simp [ApplicationSpec.readBack, readBack_of_valid _ h1, readBack_of_valid _ h4,
    gitRepository_readBack _ h2, gitRepository_readBack _ h3]

theorem application_readBack {Meta Cond : Type} (a : Application Meta Cond) (h : a.ValidText) :
    a.readBack = a := by
  obtain ⟨⟨k, v⟩, m, sp, ⟨cs, d⟩⟩ := a
  obtain ⟨⟨h1, h2⟩, h3, h4⟩ := h
  simp [Application.readBack, TypeMeta.readBack, ApplicationStatus.readBack,
    readBack_of_valid _ h1, readBack_of_valid _ h2, readBack_of_valid _ h4,
    applicationSpec_readBack _ h3]

theorem envVarPair_readBack (e : EnvVarPair) (h : e.ValidText) : e.readBack = e := by
  obtain ⟨n, v⟩ := e
  simp [EnvVarPair.readBack, readBack_of_valid _ h.1, readBack_of_valid _ h.2]

theorem component_readBack {Res : Type} (c : BindingComponent Res) (h : c.ValidText) :
    c.readBack = c.canon := by
  obtain ⟨n, ⟨r, p, e⟩⟩ := c
  obtain ⟨h1, h2⟩ := h
  have he := mapElems_id_of EnvVarPair.readBack e fun x hx => envVarPair_readBack x (h2 x hx)
  simp [BindingComponent.readBack, BindingComponentConfiguration.readBack, BindingComponent.canon,
    BindingComponentConfiguration.canon, readBack_of_valid _ h1, he]

theorem bindingSpec_readBack {Res : Type} (s : SnapshotEnvironmentBindingSpec Res)
    (h : s.ValidText) : s.readBack = s.canon := by
  obtain ⟨a, e, sn, cs⟩ := s
  obtain ⟨h1, h2, h3, h4⟩ := h
  have hc : cs.mapElems BindingComponent.readBack = cs.mapElems BindingComponent.canon := by
    cases cs with
    | none => rfl
    | some xs =>
      simp only [Slice.mapElems, Option.map_some', Option.some.injEq]
      exact List.map_congr_left fun c hc => component_readBack c (h4 c hc)
  simp [SnapshotEnvironmentBindingSpec.readBack, SnapshotEnvironmentBindingSpec.canon,
    readBack_of_valid _ h1, readBack_of_valid _ h2, readBack_of_valid _ h3, hc]

theorem componentStatus_readBack (c : BindingComponentStatus) (h : c.ValidText) :
    c.readBack = c := by
  obtain ⟨n, ⟨u, b, p, g, ci⟩⟩ := c
  obtain ⟨h1, h2, h3, h4, h5, h6⟩ := h
  have hg := mapElems_id_of GoString.readBack g fun x hx => readBack_of_valid x (h6 x hx)
  simp [BindingComponentStatus.readBack, BindingComponentGitOpsRepository.readBack,
    readBack_of_valid _ h1, readBack_of_valid _ h2, readBack_of_valid _ h3,
    readBack_of_valid _ h4, readBack_of_valid _ h5, hg]

theorem gitOpsDeployment_readBack (d : BindingStatusGitOpsDeployment) (h : d.ValidText) :
    d.readBack = d := by
  obtain ⟨n, g⟩ := d
  simp [BindingStatusGitOpsDeployment.readBack, readBack_of_valid _ h.1, readBack_of_valid _ h.2]

theorem binding_readBack {Meta Res Cond : Type} (b : SnapshotEnvironmentBinding Meta Res Cond)
    (hv : b.ValidText) (hp : b.Populated) : b.readBack = b := by
  obtain ⟨⟨k, v⟩, m, sp, ⟨d1, d2, d3, d4, d5⟩⟩ := b
  obtain ⟨⟨hk, hv'⟩, hsp, hd1, hd2⟩ := hv
  obtain ⟨hc, h1, h2, h3, h4, h5⟩ := hp
  simp only at hc h1 h2 h3 h4 h5 hd1 hd2
  have hspec : sp.readBack = sp := by
    rw [bindingSpec_readBack sp hsp]
    obtain ⟨a, e, sn, cs⟩ := sp
    have : cs.mapElems BindingComponent.canon = cs :=
      mapElems_id_of BindingComponent.canon cs fun c hcm => by
        obtain ⟨n, ⟨r, p, ev⟩⟩ := c
        have := (hc _ hcm).2
        simp only at this
        simp [BindingComponent.canon, BindingComponentConfiguration.canon,
          canon_of_nonempty ev this]
    simp [SnapshotEnvironmentBindingSpec.canon, this]
  have e1 := mapElems_id_of BindingStatusGitOpsDeployment.readBack d1
    fun x hx => gitOpsDeployment_readBack x (hd1 x hx)
  have e2 := mapElems_id_of BindingComponentStatus.readBack d2
    fun x hx => componentStatus_readBack x (hd2 x hx)
  simp [SnapshotEnvironmentBinding.readBack, SnapshotEnvironmentBindingStatus.readBack,
    TypeMeta.readBack, readBack_of_valid _ hk, readBack_of_valid _ hv', hspec, e1, e2,
    canon_of_nonempty, h1, h2, h3, h4, h5]

/-! ## The stand-ins and their own marshalling -/

theorem conditionExt_faithful (c : Condition) (h1 : c.CondType.Valid) (h2 : c.Status.Valid)
    (h3 : c.LastTransitionTime.Instant.Valid) (h4 : c.Reason.Valid) (h5 : c.Message.Valid)
    (hn : c.LastTransitionTime.Nanos = 0) : conditionExt.Faithful c := by
  obtain ⟨t, s, ⟨i, n⟩, r, m⟩ := c
  simp only at h1 h2 h3 h4 h5 hn
  subst hn
  refine ⟨rfl, ?_⟩
  by_cases hz : (⟨i, 0⟩ : Time) = Time.zero
  · simp [conditionExt, Condition.fields, decStruct, always, List.foldlM, Condition.set,
      decString_encString, readBack_of_valid, h1, h2, h4, h5, Time.toJSON, hz, Time.decode]
  · have ht : Time.decode (encString i) = some ⟨i, 0⟩ := by
      have := readBack_of_valid i h3
      simpa [Time.decode, encString, GoString.readBack] using this
    simp [conditionExt, Condition.fields, decStruct, always, List.foldlM, Condition.set,
      decString_encString, readBack_of_valid, h1, h2, h4, h5, Time.toJSON, hz, ht]

theorem subSecondCondition_unfaithful : ¬ conditionExt.Faithful subSecondCondition :=
  fun h => absurd h.2 (by decide)

theorem createdCondition_faithful : conditionExt.Faithful createdCondition := ⟨rfl, rfl⟩

theorem createdAgainCondition_faithful : conditionExt.Faithful createdAgainCondition := ⟨rfl, rfl⟩

theorem smallResources_faithful : resourceRequirementsExt.Faithful smallResources := ⟨rfl, rfl⟩

theorem fullApplication_faithful : fullApplication.ExtFaithful objectMetaExt conditionExt := by
  refine ⟨⟨rfl, rfl⟩, fun c hc => ?_⟩
  simp only [fullApplication, Slice.toList, List.mem_singleton] at hc
  subst hc
  exact createdCondition_faithful

theorem fullBinding_faithful :
    fullBinding.ExtFaithful objectMetaExt resourceRequirementsExt conditionExt := by
  refine ⟨⟨rfl, rfl⟩, fun c hc r hr => ?_, fun c hc => ?_, fun c hc => ?_, fun c hc => ?_⟩
  · simp only [fullBinding, Slice.toList, List.mem_cons, List.mem_singleton, List.not_mem_nil,
      or_false] at hc
    rcases hc with rfl | rfl <;>
    · simp only [Option.mem_def, Option.some.injEq] at hr
      subst hr
      exact smallResources_faithful
  · simp only [fullBinding, Slice.toList, List.mem_singleton] at hc
    subst hc
    exact createdCondition_faithful
  · simp only [fullBinding, Slice.toList, List.mem_singleton] at hc
    subst hc
    exact createdAgainCondition_faithful
  · simp only [fullBinding, Slice.toList, List.mem_cons, List.mem_singleton, List.not_mem_nil,
      or_false] at hc
    rcases hc with rfl | rfl
    · exact createdCondition_faithful
    · exact createdAgainCondition_faithful

theorem fullBinding_populated : fullBinding.Populated := by
  simp [SnapshotEnvironmentBinding.Populated, fullBinding, Slice.toList]

/-! ## Round trips -/

/-- C2 as stated fails.  The application `strayApplication` has every optional field
populated and the byte `0xFF` at the end of its description: it is read back with the
code point U+FFFD in place of the byte.  The application `subSecondApplication` has
every optional field populated and a condition stamped half a second after a whole
second: it is read back with the condition at the whole second.  Neither comes back
equal to the original. -/
theorem application_roundtrip_fails :
    strayApplication.Populated
      ∧ Application.unmarshal objectMetaExt conditionExt
          (strayApplication.toJSON objectMetaExt conditionExt) = some strayApplication.readBack
      ∧ strayApplication.readBack ≠ strayApplication
      ∧ subSecondApplication.Populated
      ∧ Application.unmarshal objectMetaExt conditionExt
          (subSecondApplication.toJSON objectMetaExt conditionExt) = some fullApplication
      ∧ fullApplication ≠ subSecondApplication := by
  refine ⟨?_, rfl, by decide, ?_, rfl, by decide⟩
  · unfold Application.Populated; decide
  · unfold Application.Populated; decide

/-- C2 as amended: round trip for Application.  Unmarshalling the marshalled form of an
Application gives back the Application itself, for every value of its fields,
populated or not, whose strings are valid UTF-8 and whose imported values (the object
metadata and each condition) survive their own marshalling. -/
theorem application_roundtrip {Meta Cond : Type} (metaC : Ext Meta) (condC : Ext Cond)
    (a : Application Meta Cond) (hv : a.ValidText) (h : a.ExtFaithful metaC condC) :
    Application.unmarshal metaC condC (a.toJSON metaC condC) = some a := by
  rw [application_decode_encode metaC condC a h, application_readBack a hv]

/-- Witness for C2: the fully populated application. -/
theorem application_roundtrip_witness :
    fullApplication.ValidText
      ∧ fullApplication.ExtFaithful objectMetaExt conditionExt
      ∧ Application.unmarshal objectMetaExt conditionExt
          (fullApplication.toJSON objectMetaExt conditionExt) = some fullApplication :=
  ⟨by decide, fullApplication_faithful,
    application_roundtrip objectMetaExt conditionExt fullApplication (by decide)
      fullApplication_faithful⟩

/-- C3 as stated fails.  The binding `strayBinding` has every optional field populated
and the byte `0xFF` at the end of its snapshot name: it is read back with the code
point U+FFFD in place of the byte.  The binding `subSecondBinding` has every optional
field populated and a binding condition stamped half a second after a whole second: it
is read back with the condition at the whole second.  Neither comes back equal to the
original. -/
theorem binding_roundtrip_fails :
    strayBinding.Populated
      ∧ SnapshotEnvironmentBinding.unmarshal objectMetaExt resourceRequirementsExt conditionExt
          (strayBinding.toJSON objectMetaExt resourceRequirementsExt conditionExt)
        = some strayBinding.readBack
      ∧ strayBinding.readBack ≠ strayBinding
      ∧ subSecondBinding.Populated
      ∧ SnapshotEnvironmentBinding.unmarshal objectMetaExt resourceRequirementsExt conditionExt
          (subSecondBinding.toJSON objectMetaExt resourceRequirementsExt conditionExt)
        = some { fullBinding with
            Status := { fullBinding.Status with BindingConditions := some [createdCondition] } }
      ∧ SnapshotEnvironmentBinding.unmarshal objectMetaExt resourceRequirementsExt conditionExt
          (subSecondBinding.toJSON objectMetaExt resourceRequirementsExt conditionExt)
        ≠ some subSecondBinding := by
  refine ⟨?_, rfl, by decide, ?_, rfl, by decide⟩
  · simp [SnapshotEnvironmentBinding.Populated, strayBinding, fullBinding, Slice.toList]
  · simp [SnapshotEnvironmentBinding.Populated, subSecondBinding, fullBinding, Slice.toList]

/-- C3 as amended: round trip for SnapshotEnvironmentBinding.  When every optional
field is populated, unmarshalling the marshalled form of a binding gives back the
binding itself, hence every sequence in it with its entries in their order, provided
its strings are valid UTF-8 and the imported values it carries (object metadata,
resources, conditions) survive their own marshalling. -/
theorem binding_roundtrip_populated {Meta Res Cond : Type} (metaC : Ext Meta) (resC : Ext Res)
    (condC : Ext Cond) (b : SnapshotEnvironmentBinding Meta Res Cond) (hp : b.Populated)
    (hv : b.ValidText) (h : b.ExtFaithful metaC resC condC) :
    SnapshotEnvironmentBinding.unmarshal metaC resC condC (b.toJSON metaC resC condC) = some b := by
  rw [binding_decode_encode metaC resC condC b h, binding_readBack b hv hp]

/-- Witness for C3: the fully populated binding. -/
theorem binding_roundtrip_populated_witness :
    fullBinding.Populated
      ∧ fullBinding.ValidText
      ∧ fullBinding.ExtFaithful objectMetaExt resourceRequirementsExt conditionExt
      ∧ SnapshotEnvironmentBinding.unmarshal objectMetaExt resourceRequirementsExt conditionExt
          (fullBinding.toJSON objectMetaExt resourceRequirementsExt conditionExt)
        = some fullBinding :=
  ⟨fullBinding_populated, by decide, fullBinding_faithful,
    binding_roundtrip_populated objectMetaExt resourceRequirementsExt conditionExt fullBinding
      fullBinding_populated (by decide) fullBinding_faithful⟩

/-! ## Conditions -/

/-- C6 as stated fails: `repeatedStatus` is an ApplicationStatus whose conditions hold
two entries of type `Created`, and `repeatedBindingStatus` a binding status with two
entries of one type in each of its three condition lists. -/
theorem condition_types_not_unique :
    ¬ UniqueTypes Condition.CondType repeatedStatus.Conditions
      ∧ ¬ UniqueTypes Condition.CondType repeatedBindingStatus.GitOpsRepoConditions
      ∧ ¬ UniqueTypes Condition.CondType repeatedBindingStatus.BindingConditions
      ∧ ¬ UniqueTypes Condition.CondType repeatedBindingStatus.ComponentDeploymentConditions := by
  refine ⟨?_, ?_, ?_, ?_⟩ <;>
    simp [UniqueTypes, repeatedStatus, repeatedBindingStatus, Slice.toList, createdCondition,
      createdAgainCondition]

/-- C6 as amended: the condition lists are plain ordered sequences.  Whatever entries
a status holds, repeated condition types included, if each condition survives its own
marshalling then marshalling and unmarshalling the status succeeds and returns the
conditions of an ApplicationStatus unchanged, and in a binding status the same entries,
in the same order, in each of the three condition lists. -/
theorem condition_sequences_kept {Cond : Type} (condC : Ext Cond) (s : ApplicationStatus Cond)
    (t : SnapshotEnvironmentBindingStatus Cond)
    (hs : ∀ c ∈ s.Conditions.toList, condC.Faithful c) (ht : t.ExtFaithful condC) :
    (∃ u, ApplicationStatus.decode condC ApplicationStatus.zero (s.toJSON condC) = some u
          ∧ u.Conditions = s.Conditions)
      ∧ ∃ u, SnapshotEnvironmentBindingStatus.decode condC SnapshotEnvironmentBindingStatus.zero
            (t.toJSON condC) = some u
          ∧ u.GitOpsRepoConditions.toList = t.GitOpsRepoConditions.toList
          ∧ u.BindingConditions.toList = t.BindingConditions.toList
          ∧ u.ComponentDeploymentConditions.toList = t.ComponentDeploymentConditions.toList :=
  ⟨⟨s.readBack, applicationStatus_decode_encode condC s hs, rfl⟩,
    t.readBack, bindingStatus_decode_encode condC t ht,
    canon_toList _, canon_toList _, canon_toList _⟩

theorem repeatedStatus_faithful :
    ∀ c ∈ repeatedStatus.Conditions.toList, conditionExt.Faithful c := by
  intro c hc
  simp only [repeatedStatus, Slice.toList, List.mem_cons, List.mem_singleton, List.not_mem_nil,
    or_false] at hc
  rcases hc with rfl | rfl
  · exact createdCondition_faithful
  · exact createdAgainCondition_faithful

theorem repeatedBindingStatus_faithful : repeatedBindingStatus.ExtFaithful conditionExt :=
  ⟨repeatedStatus_faithful, repeatedStatus_faithful, repeatedStatus_faithful⟩

/-- Witness for the amended C6: the two statuses with repeated condition types. -/
theorem condition_sequences_kept_witness :
    (∀ c ∈ repeatedStatus.Conditions.toList, conditionExt.Faithful c)
      ∧ repeatedBindingStatus.ExtFaithful conditionExt
      ∧ (∃ u, ApplicationStatus.decode conditionExt ApplicationStatus.zero
            (repeatedStatus.toJSON conditionExt) = some u
          ∧ u.Conditions = repeatedStatus.Conditions)
      ∧ ∃ u, SnapshotEnvironmentBindingStatus.decode conditionExt
            SnapshotEnvironmentBindingStatus.zero (repeatedBindingStatus.toJSON conditionExt) = some u
          ∧ u.GitOpsRepoConditions.toList = repeatedBindingStatus.GitOpsRepoConditions.toList
          ∧ u.BindingConditions.toList = repeatedBindingStatus.BindingConditions.toList
          ∧ u.ComponentDeploymentConditions.toList
              = repeatedBindingStatus.ComponentDeploymentConditions.toList :=
  ⟨repeatedStatus_faithful, repeatedBindingStatus_faithful,
    condition_sequences_kept conditionExt repeatedStatus repeatedBindingStatus
      repeatedStatus_faithful repeatedBindingStatus_faithful⟩

/-! ## Round trip whatever is populated -/

theorem forall₂_of_map_eq {α β : Type} (f : α → β) (R : α → α → Prop)
    (hR : ∀ a b, f a = f b → R a b) :
    ∀ xs ys : List α, xs.map f = ys.map f → List.Forall₂ R xs ys
  | [], [], _ => List.Forall₂.nil
  | [], _ :: _, h => by simp at h
  | _ :: _, [], h => by simp at h
  | x :: xs, y :: ys, h => by
    simp only [List.map_cons, List.cons.injEq] at h
    exact List.Forall₂.cons (hR x y h.1) (forall₂_of_map_eq f R hR xs ys h.2)

theorem component_same_of_canon_eq {Res : Type} (a b : BindingComponent Res)
    (h : a.canon = b.canon) : a.Same b := by
  obtain ⟨n, ⟨r, p, e⟩⟩ := a
  obtain ⟨n', ⟨r', p', e'⟩⟩ := b
  simp only [BindingComponent.canon, BindingComponentConfiguration.canon,
    BindingComponent.mk.injEq, BindingComponentConfiguration.mk.injEq] at h
  obtain ⟨hn, hr, hp, he⟩ := h
  refine ⟨hn, hr, hp, ?_⟩
  have := congrArg Slice.toList he
  simpa [Slice.Same, canon_toList] using this

theorem spec_same_of_canon_eq {Res : Type} (s t : SnapshotEnvironmentBindingSpec Res)
    (h : s.canon = t.canon) : s.Same t := by
  obtain ⟨a, e, sn, cs⟩ := s
  obtain ⟨a', e', sn', cs'⟩ := t
  simp only [SnapshotEnvironmentBindingSpec.canon, SnapshotEnvironmentBindingSpec.mk.injEq] at h
  obtain ⟨ha, he, hs, hc⟩ := h
  refine ⟨ha, he, hs, ?_⟩
  have := congrArg Slice.toList hc
  rw [toList_mapElems, toList_mapElems] at this
  exact forall₂_of_map_eq BindingComponent.canon BindingComponent.Same
    component_same_of_canon_eq _ _ this

theorem slice_canon_canon {α : Type} (s : Slice α) : s.canon.canon = s.canon := by
  cases s with
  | none => rfl
  | some xs => cases xs <;> rfl

theorem spec_canon_canon {Res : Type} (s : SnapshotEnvironmentBindingSpec Res) :
    s.canon.canon = s.canon := by
  obtain ⟨a, e, sn, cs⟩ := s
  have hc : ∀ c : BindingComponent Res, c.canon.canon = c.canon := fun c => by
    simp [BindingComponent.canon, BindingComponentConfiguration.canon, slice_canon_canon]
  cases cs with
  | none => rfl
  | some xs =>
    simp [SnapshotEnvironmentBindingSpec.canon, Slice.mapElems, Function.comp_def, hc]

/-- C9 as stated fails.  The application spec `straySpec`, whose display name ends in
the byte `0xFF`, is read back as `replacedSpec`, with the code point U+FFFD in place
of the byte: a different value with the same marshalled form.  The same holds for
the binding specs `strayBindingSpec` and `replacedBindingSpec`, which differ in a
string and not in a nil against an empty sequence.  So neither the round trip nor
the injectivity holds for every value. -/
theorem spec_roundtrip_fails :
    ApplicationSpec.unmarshal straySpec.toJSON = some replacedSpec
      ∧ replacedSpec ≠ straySpec
      ∧ straySpec.toJSON = replacedSpec.toJSON
      ∧ SnapshotEnvironmentBindingSpec.unmarshal resourceRequirementsExt
          (strayBindingSpec.toJSON resourceRequirementsExt) = some replacedBindingSpec
      ∧ ¬ replacedBindingSpec.Same strayBindingSpec
      ∧ strayBindingSpec.toJSON resourceRequirementsExt
          = replacedBindingSpec.toJSON resourceRequirementsExt :=
  ⟨rfl, by decide, rfl, rfl, fun h => absurd h.1 (by decide), rfl⟩

/-- C9 as amended: round trip whatever is populated, for values whose strings are
valid UTF-8.  For every such ApplicationSpec, with any of its `omitempty` fields empty
or not, unmarshalling the marshalled form gives back the value itself, and marshalling
is injective on such values.  For every such SnapshotEnvironmentBindingSpec whose
imported resources survive their own marshalling, unmarshalling the marshalled form
gives back a value that is the same up to nil against empty sequences, and two such
specs with the same marshalled form are the same up to nil against empty sequences. -/
theorem spec_roundtrip_any_population {Res : Type} (resC : Ext Res) (a b : ApplicationSpec)
    (s t : SnapshotEnvironmentBindingSpec Res) (ha : a.ValidText) (hb : b.ValidText)
    (hsv : s.ValidText) (htv : t.ValidText) (hs : s.ExtFaithful resC)
    (ht : t.ExtFaithful resC) :
    ApplicationSpec.unmarshal a.toJSON = some a
      ∧ (a.toJSON = b.toJSON → a = b)
      ∧ (∃ u, SnapshotEnvironmentBindingSpec.unmarshal resC (s.toJSON resC) = some u ∧ u.Same s)
      ∧ (s.toJSON resC = t.toJSON resC → s.Same t) := by
  have ea : ApplicationSpec.decode ApplicationSpec.zero a.toJSON = some a := by
    rw [applicationSpec_decode_encode a, applicationSpec_readBack a ha]
  have eb : ApplicationSpec.decode ApplicationSpec.zero b.toJSON = some b := by
    rw [applicationSpec_decode_encode b, applicationSpec_readBack b hb]
  have es : SnapshotEnvironmentBindingSpec.decode resC SnapshotEnvironmentBindingSpec.zero
      (s.toJSON resC) = some s.canon := by
    rw [bindingSpec_decode_encode resC s hs, bindingSpec_readBack s hsv]
  have et : SnapshotEnvironmentBindingSpec.decode resC SnapshotEnvironmentBindingSpec.zero
      (t.toJSON resC) = some t.canon := by
    rw [bindingSpec_decode_encode resC t ht, bindingSpec_readBack t htv]
  refine ⟨ea, fun h => ?_, ⟨s.canon, es, ?_⟩, fun h => ?_⟩
  · rw [h, eb] at ea
    exact (Option.some.inj ea).symm
  · exact spec_same_of_canon_eq _ _ (spec_canon_canon s)
  · rw [h, et] at es
    exact spec_same_of_canon_eq _ _ (Option.some.inj es).symm

theorem emptyEnvSpec_faithful : emptyEnvSpec.ExtFaithful resourceRequirementsExt := by
  intro c hc r hr
  simp only [emptyEnvSpec, Slice.toList, List.mem_singleton] at hc
  subst hc
  simp only [Option.mem_def, Option.some.injEq] at hr
  subst hr
  exact smallResources_faithful

theorem nilEnvSpec_faithful : nilEnvSpec.ExtFaithful resourceRequirementsExt := by
  intro c hc r hr
  simp only [nilEnvSpec, Slice.toList, List.mem_singleton] at hc
  subst hc
  simp only [Option.mem_def, Option.some.injEq] at hr
  subst hr
  exact smallResources_faithful

/-- Witness for C9: the example application spec, and two binding specs that differ
only in an empty against a nil env slice; they have one marshalled form and are the
same up to nil against empty, though not equal. -/
theorem spec_roundtrip_any_population_witness :
    petClinic.Spec.ValidText ∧ fullApplication.Spec.ValidText
      ∧ emptyEnvSpec.ValidText ∧ nilEnvSpec.ValidText
      ∧ emptyEnvSpec.ExtFaithful resourceRequirementsExt
      ∧ nilEnvSpec.ExtFaithful resourceRequirementsExt
      ∧ emptyEnvSpec ≠ nilEnvSpec
      ∧ emptyEnvSpec.toJSON resourceRequirementsExt = nilEnvSpec.toJSON resourceRequirementsExt
      ∧ ApplicationSpec.unmarshal petClinic.Spec.toJSON = some petClinic.Spec
      ∧ (petClinic.Spec.toJSON = fullApplication.Spec.toJSON → petClinic.Spec = fullApplication.Spec)
      ∧ (∃ u, SnapshotEnvironmentBindingSpec.unmarshal resourceRequirementsExt
            (emptyEnvSpec.toJSON resourceRequirementsExt) = some u ∧ u.Same emptyEnvSpec)
      ∧ (emptyEnvSpec.toJSON resourceRequirementsExt = nilEnvSpec.toJSON resourceRequirementsExt
          → emptyEnvSpec.Same nilEnvSpec) :=
  ⟨by decide, by decide, by decide, by decide, emptyEnvSpec_faithful, nilEnvSpec_faithful,
    by decide, rfl,
    spec_roundtrip_any_population resourceRequirementsExt petClinic.Spec fullApplication.Spec
      emptyEnvSpec nilEnvSpec (by decide) (by decide) (by decide) (by decide)
      emptyEnvSpec_faithful nilEnvSpec_faithful⟩

/-! ## No validation -/

theorem applicationSpec_set_keeps_displayName (acc : ApplicationSpec) (k : String) (j : JSON)
    (acc' : ApplicationSpec) (hk : k ≠ "displayName") (h : ApplicationSpec.set acc k j = some acc') :
    acc'.DisplayName = acc.DisplayName := by
  unfold ApplicationSpec.set at h
  split_ifs at h
  all_goals
    first
    | contradiction
    | (obtain ⟨x, _, rfl⟩ := Option.map_eq_some'.mp h; rfl)
    | (rw [← Option.some.inj h])

theorem bindingSpec_set_keeps_application {Res : Type} (resC : Ext Res)
    (acc : SnapshotEnvironmentBindingSpec Res) (k : String) (j : JSON)
    (acc' : SnapshotEnvironmentBindingSpec Res) (hk : k ≠ "application")
    (h : SnapshotEnvironmentBindingSpec.set resC acc k j = some acc') :
    acc'.Application = acc.Application := by
  unfold SnapshotEnvironmentBindingSpec.set at h
  split_ifs at h
  all_goals
    first
    | contradiction
    | (obtain ⟨x, _, rfl⟩ := Option.map_eq_some'.mp h; rfl)
    | (rw [← Option.some.inj h])

theorem bindingSpec_set_keeps_environment {Res : Type} (resC : Ext Res)
    (acc : SnapshotEnvironmentBindingSpec Res) (k : String) (j : JSON)
    (acc' : SnapshotEnvironmentBindingSpec Res) (hk : k ≠ "environment")
    (h : SnapshotEnvironmentBindingSpec.set resC acc k j = some acc') :
    acc'.Environment = acc.Environment := by
  unfold SnapshotEnvironmentBindingSpec.set at h
  split_ifs at h
  all_goals
    first
    | contradiction
    | (obtain ⟨x, _, rfl⟩ := Option.map_eq_some'.mp h; rfl)
    | (rw [← Option.some.inj h])

theorem bindingSpec_set_keeps_snapshot {Res : Type} (resC : Ext Res)
    (acc : SnapshotEnvironmentBindingSpec Res) (k : String) (j : JSON)
    (acc' : SnapshotEnvironmentBindingSpec Res) (hk : k ≠ "snapshot")
    (h : SnapshotEnvironmentBindingSpec.set resC acc k j = some acc') :
    acc'.Snapshot = acc.Snapshot := by
  unfold SnapshotEnvironmentBindingSpec.set at h
  split_ifs at h
  all_goals
    first
    | contradiction
    | (obtain ⟨x, _, rfl⟩ := Option.map_eq_some'.mp h; rfl)
    | (rw [← Option.some.inj h])

theorem bindingSpec_set_keeps_components {Res : Type} (resC : Ext Res)
    (acc : SnapshotEnvironmentBindingSpec Res) (k : String) (j : JSON)
    (acc' : SnapshotEnvironmentBindingSpec Res) (hk : k ≠ "components")
    (h : SnapshotEnvironmentBindingSpec.set resC acc k j = some acc') :
    acc'.Components = acc.Components := by
  unfold SnapshotEnvironmentBindingSpec.set at h
  split_ifs at h
  all_goals
    first
    | contradiction
    | (obtain ⟨x, _, rfl⟩ := Option.map_eq_some'.mp h; rfl)
    | (rw [← Option.some.inj h])

/-- C8: the schema has no validation.  A serialized object whose present members have
the declared types is unmarshalled without error into an ApplicationSpec, and likewise
into a SnapshotEnvironmentBindingSpec (the imported resources type accepting the
documents of its shape), whether or not the required members are there.  Without a
`displayName` member the resulting DisplayName is the empty string; without an
`application`, `environment`, `snapshot` or `components` member the resulting field is
the empty string, respectively the nil sequence. -/
theorem unmarshal_accepts_missing_members {Res : Type} (resC : Ext Res) (resFits : JSON → Bool)
    (hres : resC.Accepts resFits) (j j' : JSON) (hj : ApplicationSpec.fits j = true)
    (hj' : SnapshotEnvironmentBindingSpec.fits resFits j' = true) :
    (∃ a, ApplicationSpec.unmarshal j = some a
        ∧ (j.hasKey "displayName" = false → a.DisplayName = GoString.empty))
      ∧ (∃ s, SnapshotEnvironmentBindingSpec.unmarshal resC j' = some s
        ∧ (j'.hasKey "application" = false → s.Application = GoString.empty)
        ∧ (j'.hasKey "environment" = false → s.Environment = GoString.empty)
        ∧ (j'.hasKey "snapshot" = false → s.Snapshot = GoString.empty)
        ∧ (j'.hasKey "components" = false → s.Components = none)) := by
  constructor
  · cases j with
    | obj ms =>
      obtain ⟨a, ha⟩ := Option.isSome_iff_exists.mp
        (foldlM_isSome ApplicationSpec.set ApplicationSpec.fitsMember applicationSpec_set_isSome
          ms ApplicationSpec.zero hj)
      exact ⟨a, ha, fun hk => foldlM_keeps ApplicationSpec.set ApplicationSpec.DisplayName
        "displayName" applicationSpec_set_keeps_displayName ms ApplicationSpec.zero a hk ha⟩
    | _ => simp [ApplicationSpec.fits] at hj
  · cases j' with
    | obj ms =>
      obtain ⟨s, hs⟩ := Option.isSome_iff_exists.mp
        (foldlM_isSome (SnapshotEnvironmentBindingSpec.set resC)
          (SnapshotEnvironmentBindingSpec.fitsMember resFits)
          (bindingSpec_set_isSome resC resFits hres) ms SnapshotEnvironmentBindingSpec.zero hj')
      exact ⟨s, hs,
        fun hk => foldlM_keeps _ SnapshotEnvironmentBindingSpec.Application "application"
          (bindingSpec_set_keeps_application resC) ms _ s hk hs,
        fun hk => foldlM_keeps _ SnapshotEnvironmentBindingSpec.Environment "environment"
          (bindingSpec_set_keeps_environment resC) ms _ s hk hs,
        fun hk => foldlM_keeps _ SnapshotEnvironmentBindingSpec.Snapshot "snapshot"
          (bindingSpec_set_keeps_snapshot resC) ms _ s hk hs,
        fun hk => foldlM_keeps _ SnapshotEnvironmentBindingSpec.Components "components"
          (bindingSpec_set_keeps_components resC) ms _ s hk hs⟩
    | _ => simp [SnapshotEnvironmentBindingSpec.fits] at hj'

theorem resourceList_set_isSome (acc : ResourceList) (k : String) (j : JSON)
    (h : ResourceList.fitsMember k j = true) : (ResourceList.set acc k j).isSome = true := by
  unfold ResourceList.fitsMember at h
  unfold ResourceList.set
  split_ifs <;> simp_all [decString_isSome]

theorem resourceRequirements_set_isSome (acc : ResourceRequirements) (k : String) (j : JSON)
    (h : ResourceRequirements.fitsMember k j = true) :
    (ResourceRequirements.set acc k j).isSome = true := by
  unfold ResourceRequirements.fitsMember at h
  unfold ResourceRequirements.set
  have hl := fun cur => decStruct_isSome ResourceList.set ResourceList.fitsMember
    resourceList_set_isSome cur j
  split_ifs <;> simp_all

theorem resourceRequirementsExt_accepts :
    resourceRequirementsExt.Accepts (fitsStruct ResourceRequirements.fitsMember) :=
  fun cur j hj => decStruct_isSome ResourceRequirements.set ResourceRequirements.fitsMember
    resourceRequirements_set_isSome cur j hj

/-- Witness for C8: a document with a description and an unknown key, and a document
with a component list and an unknown key; neither holds a required string member, and
both are unmarshalled, the missing fields left empty. -/
theorem unmarshal_accepts_missing_members_witness :
    resourceRequirementsExt.Accepts (fitsStruct ResourceRequirements.fitsMember)
      ∧ ApplicationSpec.fits noRequiredMembers = true
      ∧ SnapshotEnvironmentBindingSpec.fits (fitsStruct ResourceRequirements.fitsMember)
          noReferences = true
      ∧ ApplicationSpec.unmarshal noRequiredMembers
          = some ⟨GoString.empty, ApplicationGitRepository.zero, ApplicationGitRepository.zero,
              "demo app"⟩
      ∧ SnapshotEnvironmentBindingSpec.unmarshal resourceRequirementsExt noReferences
          = some ⟨GoString.empty, GoString.empty, GoString.empty,
              some [⟨"web", ⟨⟨2, by decide⟩,
                some ⟨⟨"1", GoString.empty⟩, ⟨GoString.empty, GoString.empty⟩⟩, none⟩⟩]⟩
      ∧ (∃ a, ApplicationSpec.unmarshal noRequiredMembers = some a
        ∧ (noRequiredMembers.hasKey "displayName" = false → a.DisplayName = GoString.empty))
      ∧ (∃ s, SnapshotEnvironmentBindingSpec.unmarshal resourceRequirementsExt noReferences = some s
        ∧ (noReferences.hasKey "application" = false → s.Application = GoString.empty)
        ∧ (noReferences.hasKey "environment" = false → s.Environment = GoString.empty)
        ∧ (noReferences.hasKey "snapshot" = false → s.Snapshot = GoString.empty)
        ∧ (noReferences.hasKey "components" = false → s.Components = none)) :=
  ⟨resourceRequirementsExt_accepts, rfl, rfl, rfl, rfl,
    unmarshal_accepts_missing_members resourceRequirementsExt
      (fitsStruct ResourceRequirements.fitsMember) resourceRequirementsExt_accepts
      noRequiredMembers noReferences rfl rfl⟩

end V1alpha1
